import Mathlib

/-!
Formal model of the thermostat-proxy reconciliation core
(custom_components/thermostat_proxy), shallowly embedded in Lean 4.

Modelling conventions:
* Python floats are modelled as exact rationals.  All temperature values in
  the verified scenarios are exactly representable in binary floating point,
  so the rational model agrees with the runtime on them.
* `None` is modelled by `Option`.  A Python attribute value is `Val`
  (a number or a string); enum-like wrapper values are already stored in
  their raw (normalized) representation.
* String-to-float coercion models the common decimal forms accepted by
  Python `float` (optional sign, digits, optional fraction).  Exotic inputs
  (exponents, infinities, embedded whitespace) are treated as unparsable.
* `time.monotonic()` timestamps are rationals; the current time is threaded
  explicitly through each operation that reads the clock.
-/

namespace ThermostatProxy

/-- Python attribute value: a float/int or a (raw, already-normalized) string. -/
inductive Val where
  | num (q : ℚ)
  | str (s : String)
deriving DecidableEq, Repr

/-- Numeric value of a digit character. -/
def digitVal (c : Char) : Option ℕ :=
  if c.isDigit then some (c.toNat - 48) else none

/-- Accumulating decimal-digit parser; fails on a non-digit. -/
def digitsValAux (acc : ℕ) : List Char → Option ℕ
  | [] => some acc
  | c :: cs =>
    match digitVal c with
    | some d => digitsValAux (acc * 10 + d) cs
    | none => none

/-- Value of a non-empty string of decimal digits. -/
def digitsVal (cs : List Char) : Option ℕ :=
  if cs.isEmpty then none else digitsValAux 0 cs

/-- Model of Python float parsing for plain decimal literals:
optional sign, integer digits, optional fractional digits.  At least one
digit must be present. -/
def parseDecimal (s : String) : Option ℚ :=
  let cs := s.toList
  let signAndRest : ℚ × List Char :=
    match cs with
    | c :: rest =>
      if c = '-' then (-1, rest) else if c = '+' then (1, rest) else (1, cs)
    | [] => (1, cs)
  let sign := signAndRest.1
  let body := signAndRest.2
  let intPart := body.takeWhile (fun c => c ≠ '.')
  let rest := body.dropWhile (fun c => c ≠ '.')
  match rest with
  | [] =>
    match digitsVal intPart with
    | some n => some (sign * n)
    | none => none
  | _ :: frac =>
    if intPart.isEmpty ∧ frac.isEmpty then none
    else
      match (if intPart.isEmpty then some 0 else digitsVal intPart) with
      | none => none
      | some ip =>
        match (if frac.isEmpty then some 0 else digitsVal frac) with
        | none => none
        | some fp =>
          if frac.all Char.isDigit then
            some (sign * (ip + (fp : ℚ) / (10 : ℚ) ^ frac.length))
          else none

/-- Model of climate_model._coerce_temperature: None stays None, numbers pass
through, strings are parsed as decimals (NaN cannot arise in the rational
model; unparsable strings coerce to None as in the source). -/
def coerceTemperature : Option Val → Option ℚ
  | none => none
  | some (.num q) => some q
  | some (.str s) => parseDecimal s

/-- Model of climate_model._coerce_positive_float. -/
def coercePositiveFloat (v : Option Val) : Option ℚ :=
  match coerceTemperature v with
  | none => none
  | some q => if q ≤ 0 then none else some q

/-- Relative tolerance baked into math.isclose (its default rel_tol=1e-9). -/
def iscloseRelTol : ℚ := 1 / 1000000000

/-- Model of math.isclose a b abs_tol=t with the default relative tolerance:
true iff the absolute difference is at most max(1e-9 * max(abs a, abs b), t). -/
def isclose (a b absTol : ℚ) : Bool :=
  |a - b| ≤ max (iscloseRelTol * max |a| |b|) absTol

/-! ## Setting registry (climate_model.TrackableSetting) -/

/-- climate_model constants. -/
def DEFAULT_PRECISION : ℚ := 1 / 10
def PENDING_REQUEST_TOLERANCE_MIN : ℚ := 1 / 20
def PENDING_REQUEST_TOLERANCE_MAX : ℚ := 1 / 2
def MAX_TRACKED_REAL_TARGET_REQUESTS : ℕ := 5
def PENDING_REQUEST_TIMEOUT : ℚ := 30

/-- The eight writable climate attributes tracked for echo detection and
single-source-of-truth enforcement. -/
inductive TrackableSetting where
  | hvacMode
  | temperature
  | fanMode
  | swingMode
  | targetTempHigh
  | targetTempLow
  | targetHumidity
  | swingHorizontalMode
deriving DecidableEq, Repr

/-- All settings, in catalog order. -/
def allSettings : List TrackableSetting :=
  [.hvacMode, .temperature, .fanMode, .swingMode, .targetTempHigh,
   .targetTempLow, .targetHumidity, .swingHorizontalMode]

namespace TrackableSetting

/-- attr_key column of the catalog. -/
def attrKey : TrackableSetting → String
  | hvacMode => "hvac_mode"
  | temperature => "temperature"
  | fanMode => "fan_mode"
  | swingMode => "swing_mode"
  | targetTempHigh => "target_temp_high"
  | targetTempLow => "target_temp_low"
  | targetHumidity => "target_humidity"
  | swingHorizontalMode => "swing_horizontal_mode"

/-- is_state column: whether the live value is read from the state string. -/
def isState : TrackableSetting → Bool
  | hvacMode => true
  | _ => false

/-- is_numeric column: tolerance comparison vs exact comparison. -/
def isNumeric : TrackableSetting → Bool
  | temperature => true
  | targetTempHigh => true
  | targetTempLow => true
  | targetHumidity => true
  | _ => false

/-- state_key property: attribute key used when reading from a snapshot
(the state_key_override column, falling back to attr_key). -/
def stateKey : TrackableSetting → String
  | targetHumidity => "humidity"
  | s => s.attrKey

/-- feature_flag column, as the numeric value of the hosting framework
ClimateEntityFeature flag gating the setting (none for the two core
settings that are always active). -/
def featureFlag : TrackableSetting → Option ℕ
  | fanMode => some 8
  | swingMode => some 32
  | targetTempHigh => some 2
  | targetTempLow => some 2
  | targetHumidity => some 4
  | swingHorizontalMode => some 512
  | _ => none

/-- correction_group column. -/
def correctionGroup : TrackableSetting → Option String
  | targetTempHigh => some "temp_range"
  | targetTempLow => some "temp_range"
  | _ => none

/-- Model of TrackableSetting.values_match.  Enum-like wrappers are already
normalized in the `Val` model, so discrete normalization is the identity.
A numeric comparison of non-numeric payloads cannot arise from coerced
reads; it is modelled as a mismatch. -/
def valuesMatch (s : TrackableSetting) (a b : Option Val) (tolerance : Option ℚ) : Bool :=
  match a, b with
  | none, none => true
  | none, some _ => false
  | some _, none => false
  | some x, some y =>
    if s.isNumeric then
      match x, y with
      | .num p, .num q => isclose p q (tolerance.getD PENDING_REQUEST_TOLERANCE_MAX)
      | _, _ => false
    else x = y

end TrackableSetting

/-! ## Host-framework state snapshots -/

/-- A Home Assistant state snapshot: overall state string plus attribute bag. -/
structure HAState where
  state : String
  attributes : List (String × Val)
deriving DecidableEq, Repr

/-- Attribute lookup (dict .get). -/
def HAState.getAttr (st : HAState) (key : String) : Option Val :=
  st.attributes.lookup key

/-- Model of TrackableSetting.read_from. -/
def TrackableSetting.readFrom (s : TrackableSetting) (st : HAState) : Option Val :=
  if s.isState then some (.str st.state)
  else
    let raw := st.getAttr s.stateKey
    if s.isNumeric then (coerceTemperature raw).map Val.num
    else raw

/-- STATE_UNAVAILABLE / STATE_UNKNOWN check on a state string. -/
def isUnavailableState (s : String) : Bool :=
  s = "unavailable" ∨ s = "unknown"

/-! ## Proxy entity state (climate_entity.ThermostatProxyClimate) -/

/-- Configuration of one temperature sensor (climate_model.SensorConfig). -/
structure SensorConfig where
  name : String
  entityId : Option String
  isPhysical : Bool
deriving DecidableEq, Repr

/-- Immutable per-entity configuration, including the defaults inherited
from the hosting ClimateEntity base class (treated as given constants of
the environment). -/
structure Config where
  userMinTemp : Option ℚ
  userMaxTemp : Option ℚ
  superMinTemp : ℚ
  superMaxTemp : ℚ
  superStep : Option ℚ
  superPrecision : ℚ
  physicalSensorName : String
  sensors : List SensorConfig
deriving DecidableEq, Repr

/-- One pending-write ledger entry: (value, monotonic timestamp). -/
abbrev PendingEntry := Val × ℚ

/-- Mutable proxy state relevant to the reconciliation core. -/
structure EntityState where
  realState : Option HAState
  sensorStates : List (String × Option HAState)
  selectedSensorName : String
  devMinTemp : Option ℚ
  devMaxTemp : Option ℚ
  targetTempStep : Option ℚ
  precisionOverride : Option ℚ
  activeTrackedSettings : List TrackableSetting
  ssotSettings : List TrackableSetting
  itSettings : List TrackableSetting
  ssotBaselines : TrackableSetting → Option Val
  pendingSettingRequests : TrackableSetting → List PendingEntry
  lastRealTargetTemp : Option Val
  lastRealWriteTime : ℚ
  suppressSyncLogsUntil : Option ℚ
  virtualTargetTemperature : Option ℚ
  lastNonOffHvacMode : Option String

/-- Property _single_source_of_truth: any settings SSOT-tracked. -/
def ssotActive (st : EntityState) : Bool :=
  !st.ssotSettings.isEmpty

/-- Property _ignore_thermostat: any settings in ignore-thermostat mode. -/
def ignoreThermostat (st : EntityState) : Bool :=
  !st.itSettings.isEmpty

/-- Emptiness of the _ssot_baselines dict (no setting has a stored value). -/
def ssotBaselinesEmpty (st : EntityState) : Bool :=
  allSettings.all fun s => (st.ssotBaselines s).isNone

/-! ### SSOT baseline helpers -/

/-- Model of _get_ssot_baseline: Temperature is aliased to the
last-real-target field, every other setting reads the generic map. -/
def getSsotBaseline (st : EntityState) (s : TrackableSetting) : Option Val :=
  if s = .temperature then st.lastRealTargetTemp
  else st.ssotBaselines s

/-- Model of _remember_non_off_hvac_mode: remember the latest valid
non-off HVAC mode string. -/
def rememberNonOffHvacMode (st : EntityState) (mode : Option Val) : EntityState :=
  match mode with
  | some (.str m) =>
    if m ∈ ["heat", "cool", "heat_cool", "auto", "dry", "fan_only"] then
      { st with lastNonOffHvacMode := some m }
    else st
  | _ => st

/-- Model of _set_ssot_baseline: Temperature writes the alias field,
hvac_mode additionally refreshes the remembered non-off mode. -/
def setSsotBaseline (st : EntityState) (s : TrackableSetting) (v : Val) : EntityState :=
  if s = .temperature then { st with lastRealTargetTemp := some v }
  else if s = .hvacMode then
    rememberNonOffHvacMode
      { st with ssotBaselines := Function.update st.ssotBaselines s (some v) } (some v)
  else { st with ssotBaselines := Function.update st.ssotBaselines s (some v) }

/-! ### Pending-write ledger -/

/-- Model of _record_setting_request on one ledger list: append and evict
the oldest entry when the count exceeds the capacity of 5. -/
def recordList (l : List PendingEntry) (v : Val) (now : ℚ) : List PendingEntry :=
  let l2 := l ++ [(v, now)]
  if MAX_TRACKED_REAL_TARGET_REQUESTS < l2.length then l2.tail else l2

/-- Model of _record_setting_request. -/
def recordSettingRequest (st : EntityState) (s : TrackableSetting) (v : Val) (now : ℚ) :
    EntityState :=
  let l := recordList (st.pendingSettingRequests s) v now
  { st with pendingSettingRequests := Function.update st.pendingSettingRequests s l }

/-- Purge rule of _cleanup_pending_requests on one list: keep entries whose
age is strictly under the 30-second timeout. -/
def cleanupList (now : ℚ) (l : List PendingEntry) : List PendingEntry :=
  l.filter fun e => now - e.2 < PENDING_REQUEST_TIMEOUT

/-- Model of _cleanup_pending_requests. -/
def cleanupPendingRequests (st : EntityState) (s : TrackableSetting) (now : ℚ) :
    EntityState :=
  let l := cleanupList now (st.pendingSettingRequests s)
  { st with pendingSettingRequests := Function.update st.pendingSettingRequests s l }

/-- Scan of _has_pending_setting_request over an (already purged) list. -/
def hasMatchList (s : TrackableSetting) (v : Val) (tolerance : Option ℚ)
    (l : List PendingEntry) : Bool :=
  l.any fun e => s.valuesMatch (some v) (some e.1) tolerance

/-- Model of _has_pending_setting_request: purge, then scan; returns the
purged state together with the answer. -/
def hasPendingSettingRequest (st : EntityState) (s : TrackableSetting) (v : Val)
    (tolerance : Option ℚ) (now : ℚ) : Bool × EntityState :=
  let st1 := cleanupPendingRequests st s now
  (hasMatchList s v tolerance (st1.pendingSettingRequests s), st1)

/-- Removal of the first entry of a list matching the given value. -/
def removeFirstMatch (s : TrackableSetting) (v : Val) (tolerance : Option ℚ) :
    List PendingEntry → List PendingEntry
  | [] => []
  | e :: rest =>
    if s.valuesMatch (some v) (some e.1) tolerance then rest
    else e :: removeFirstMatch s v tolerance rest

/-- Model of _consume_pending_setting_request: purge, then remove the first
matching entry; returns whether a match was consumed. -/
def consumePendingSettingRequest (st : EntityState) (s : TrackableSetting) (v : Val)
    (tolerance : Option ℚ) (now : ℚ) : Bool × EntityState :=
  let st1 := cleanupPendingRequests st s now
  let l := st1.pendingSettingRequests s
  let l2 := removeFirstMatch s v tolerance l
  (hasMatchList s v tolerance l,
   { st1 with pendingSettingRequests := Function.update st1.pendingSettingRequests s l2 })

/-! ### Temperature properties and target translation -/

/-- Property min_temp: user-configured, else device-reported, else the
framework default. -/
def minTempProp (cfg : Config) (st : EntityState) : ℚ :=
  match cfg.userMinTemp with
  | some v => v
  | none =>
    match st.devMinTemp with
    | some v => v
    | none => cfg.superMinTemp

/-- Property max_temp. -/
def maxTempProp (cfg : Config) (st : EntityState) : ℚ :=
  match cfg.userMaxTemp with
  | some v => v
  | none =>
    match st.devMaxTemp with
    | some v => v
    | none => cfg.superMaxTemp

/-- Property target_temperature_step. -/
def targetTempStepProp (cfg : Config) (st : EntityState) : Option ℚ :=
  match st.targetTempStep with
  | some v => some v
  | none =>
    match st.precisionOverride with
    | some v => some v
    | none => cfg.superStep

/-- Property precision. -/
def precisionProp (cfg : Config) (st : EntityState) : ℚ :=
  match st.precisionOverride with
  | some v => v
  | none =>
    match st.targetTempStep with
    | some v => v
    | none => cfg.superPrecision

/-- Model of _pending_request_tolerance: half the proxy precision, clamped
to [0.05, 0.5]; a falsy (zero) precision falls back to the default. -/
def pendingRequestTolerance (cfg : Config) (st : EntityState) : ℚ :=
  let precision := if precisionProp cfg st = 0 then DEFAULT_PRECISION else precisionProp cfg st
  max PENDING_REQUEST_TOLERANCE_MIN (min PENDING_REQUEST_TOLERANCE_MAX (precision / 2))

/-- Python round(): round half to even. -/
def roundHalfEven (q : ℚ) : ℤ :=
  let f := ⌊q⌋
  let frac := q - f
  if frac < 1 / 2 then f
  else if 1 / 2 < frac then f + 1
  else if f % 2 = 0 then f else f + 1

/-- Python round(q, d): round half to even at d decimal places (ideal
decimal semantics of the rational model). -/
def roundToDecimals (q : ℚ) (d : ℕ) : ℚ :=
  (roundHalfEven (q * (10 : ℚ) ^ d)) / (10 : ℚ) ^ d

/-- Decimal places used by _round_temperature in its general branch:
max(1, min(3, round(-log10 precision))), decided by exact rational
comparisons (the rounding boundaries are irrational, hence never hit). -/
def logPrecisionDecimals (p : ℚ) : ℕ :=
  if 1 < p * p * 1000 then 1
  else if 1 < p * p * 100000 then 2
  else 3

/-- Model of _round_temperature. -/
def roundTemperature (cfg : Config) (st : EntityState) (value : ℚ) : ℚ :=
  let precision := if precisionProp cfg st = 0 then DEFAULT_PRECISION else precisionProp cfg st
  if 1 ≤ precision then (roundHalfEven value : ℚ)
  else if isclose precision (1 / 2) (1 / 100) then (roundHalfEven (value * 2) : ℚ) / 2
  else roundToDecimals value (logPrecisionDecimals precision)

/-- Model of _apply_target_constraints on a present value: clamp to
[min_temp, max_temp], round to a positive step if configured, re-clamp,
then apply precision rounding. -/
def applyTargetConstraintsCore (cfg : Config) (st : EntityState) (value : ℚ) : ℚ :=
  let mn := minTempProp cfg st
  let mx := maxTempProp cfg st
  let r1 := min (max value mn) mx
  let r2 :=
    match targetTempStepProp cfg st with
    | some step => if 0 < step then (roundHalfEven (r1 / step) : ℚ) * step else r1
    | none => r1
  let r3 := min (max r2 mn) mx
  roundTemperature cfg st r3

/-- Model of _apply_target_constraints (None passes through). -/
def applyTargetConstraints (cfg : Config) (st : EntityState) :
    Option ℚ → Option ℚ
  | none => none
  | some v => some (applyTargetConstraintsCore cfg st v)

/-- Model of _get_real_current_temperature (health bookkeeping elided). -/
def getRealCurrentTemperature (st : EntityState) : Option ℚ :=
  match st.realState with
  | none => none
  | some rs =>
    if isUnavailableState rs.state then none
    else coerceTemperature (rs.getAttr "current_temperature")

/-- Model of _get_real_target_temperature. -/
def getRealTargetTemperature (st : EntityState) : Option ℚ :=
  match st.realState with
  | none => none
  | some rs => coerceTemperature (rs.getAttr "temperature")

/-- Model of _get_active_sensor_temperature. -/
def getActiveSensorTemperature (cfg : Config) (st : EntityState) : Option ℚ :=
  match cfg.sensors.find? (fun sc => sc.name = st.selectedSensorName) with
  | none => none
  | some sc =>
    if sc.isPhysical then getRealCurrentTemperature st
    else
      match sc.entityId.bind (fun eid => st.sensorStates.lookup eid) with
      | none => none
      | some none => none
      | some (some sst) =>
        if isUnavailableState sst.state then none
        else parseDecimal sst.state

/-- Python or on optional floats: a zero reading is falsy and falls through
to the second operand, exactly as the use of the or operator in the source. -/
def pyOr (a b : Option ℚ) : Option ℚ :=
  match a with
  | some x => if x = 0 then b else some x
  | none => b

/-- Property current_temperature: active-sensor reading, else the device
current reading (via Python or, so a 0.0 reading falls through). -/
def currentTemperature (cfg : Config) (st : EntityState) : Option ℚ :=
  pyOr (getActiveSensorTemperature cfg st) (getRealCurrentTemperature st)

/-- Effective lower safety limit of _apply_safety_clamp. -/
def effectiveMinTemp (cfg : Config) (st : EntityState) : Option ℚ :=
  match cfg.userMinTemp with
  | some v => some v
  | none => st.devMinTemp

/-- Effective upper safety limit of _apply_safety_clamp. -/
def effectiveMaxTemp (cfg : Config) (st : EntityState) : Option ℚ :=
  match cfg.userMaxTemp with
  | some v => some v
  | none => st.devMaxTemp

/-- Model of _apply_safety_clamp on a present value. -/
def applySafetyClampCore (cfg : Config) (st : EntityState) (target : ℚ) : ℚ :=
  match effectiveMinTemp cfg st, effectiveMaxTemp cfg st with
  | some mn, some mx =>
    if mx < mn then mx
    else if target < mn then mn
    else if mx < target then mx
    else target
  | some mn, none => if target < mn then mn else target
  | none, some mx => if mx < target then mx else target
  | none, none => target

/-- Model of _apply_safety_clamp (None passes through). -/
def applySafetyClamp (cfg : Config) (st : EntityState) : Option ℚ → Option ℚ
  | none => none
  | some t => some (applySafetyClampCore cfg st t)

/-- Model of _compute_delta_target: returns
(constrained virtual, real target, display current, real current), or none
when a required reading is unavailable. -/
def computeDeltaTarget (cfg : Config) (st : EntityState) (requested : ℚ) :
    Option (ℚ × ℚ × ℚ × ℚ) :=
  let constrained := applyTargetConstraintsCore cfg st requested
  match currentTemperature cfg st, getRealCurrentTemperature st with
  | some displayCurrent, some realCurrent =>
    let delta := constrained - displayCurrent
    let calculated := realCurrent + delta
    let clamped := applySafetyClampCore cfg st calculated
    some (constrained, applyTargetConstraintsCore cfg st clamped, displayCurrent, realCurrent)
  | _, _ => none

/-! ### Write transactions (climate_entity) -/

/-- Model of _remove_pending_setting_request: no purge; removes the first
entry matching the value, with the precision-derived pending tolerance for
numeric settings. -/
def removePendingSettingRequest (cfg : Config) (st : EntityState) (s : TrackableSetting)
    (v : Val) : EntityState :=
  let tolerance := if s.isNumeric then some (pendingRequestTolerance cfg st) else none
  let l := removeFirstMatch s v tolerance (st.pendingSettingRequests s)
  { st with pendingSettingRequests := Function.update st.pendingSettingRequests s l }

/-- Rollback snapshot captured by _begin_write_transaction. -/
structure WriteSnapshot where
  lastRealTargetTemp : Option Val
  lastRealWriteTime : ℚ
  suppressSyncLogsUntil : Option ℚ
  ssotBaselines : List (TrackableSetting × Option Val)

/-- Insertion with Python-dict semantics (an existing key is overwritten in
place, otherwise the pair is appended). -/
def snapInsert (l : List (TrackableSetting × Option Val)) (s : TrackableSetting)
    (v : Option Val) : List (TrackableSetting × Option Val) :=
  if l.any (fun e => e.1 = s) then
    l.map fun e => if e.1 = s then (s, v) else e
  else l ++ [(s, v)]

/-- Model of _begin_write_transaction: snapshot the scalar fields, record
each canonical update (snapshotting the prior baseline just before each
set), record the pending entries, apply the optimistic real target, stamp
the write time and open the log-suppression window. -/
def beginWriteTransaction (st : EntityState)
    (pendingUpdates : List (TrackableSetting × Val))
    (canonicalUpdates : List (TrackableSetting × Val))
    (optimisticRealTarget : Option ℚ) (suppressAutoSync : Bool) (now : ℚ) :
    WriteSnapshot × EntityState :=
  let base : WriteSnapshot :=
    ⟨st.lastRealTargetTemp, st.lastRealWriteTime, st.suppressSyncLogsUntil, []⟩
  let step := fun (acc : WriteSnapshot × EntityState) (u : TrackableSetting × Val) =>
    let sn := acc.1
    let s0 := acc.2
    (⟨sn.lastRealTargetTemp, sn.lastRealWriteTime, sn.suppressSyncLogsUntil,
      snapInsert sn.ssotBaselines u.1 (getSsotBaseline s0 u.1)⟩,
     setSsotBaseline s0 u.1 u.2)
  let snapAndSt := canonicalUpdates.foldl step (base, st)
  let st2 := pendingUpdates.foldl (fun s0 u => recordSettingRequest s0 u.1 u.2 now) snapAndSt.2
  let st3 :=
    match optimisticRealTarget with
    | some rt => { st2 with lastRealTargetTemp := some (.num rt) }
    | none => st2
  let st4 := { st3 with lastRealWriteTime := now }
  let st5 :=
    if suppressAutoSync then { st4 with suppressSyncLogsUntil := some (now + 5) } else st4
  (snapAndSt.1, st5)

/-- Model of _rollback_write_transaction: restore the scalar snapshot, then
replay the snapshotted baselines (Temperature through the alias), then
remove one pending entry per recorded pending update. -/
def rollbackWriteTransaction (cfg : Config) (st : EntityState) (snap : WriteSnapshot)
    (pendingUpdates : List (TrackableSetting × Val)) : EntityState :=
  let st1 := { st with lastRealTargetTemp := snap.lastRealTargetTemp,
                       lastRealWriteTime := snap.lastRealWriteTime,
                       suppressSyncLogsUntil := snap.suppressSyncLogsUntil }
  let st2 := snap.ssotBaselines.foldl (fun s0 e =>
    if e.1 = .temperature then { s0 with lastRealTargetTemp := e.2 }
    else { s0 with ssotBaselines := Function.update s0.ssotBaselines e.1 e.2 }) st1
  pendingUpdates.foldl (fun s0 u => removePendingSettingRequest cfg s0 u.1 u.2) st2

/-- Outcome of a caller-initiated set-temperature: the post-call state and
whether the transport error was re-raised to the caller. -/
structure SetTempResult where
  state : EntityState
  raised : Bool

/-- Model of async_set_temperature, single-target path (the kwargs carry a
temperature value and no range bounds).  The transport outcome is the
callOk oracle; callOk = false models the service call raising. -/
def asyncSetTemperature (cfg : Config) (st : EntityState) (temperature : Option Val)
    (now : ℚ) (callOk : Bool) : SetTempResult :=
  match coerceTemperature temperature with
  | none => ⟨st, false⟩
  | some requested =>
    match computeDeltaTarget cfg st requested with
    | none => ⟨st, false⟩
    | some (constrained, realTarget, _, _) =>
      let pendingUpdates := [(TrackableSetting.temperature, Val.num realTarget)]
      let canonicalUpdates :=
        if ssotActive st then [(TrackableSetting.temperature, Val.num realTarget)] else []
      let snapAndSt :=
        beginWriteTransaction st pendingUpdates canonicalUpdates (some realTarget) true now
      if callOk then
        ⟨{ snapAndSt.2 with virtualTargetTemperature := some constrained }, false⟩
      else
        ⟨rollbackWriteTransaction cfg snapAndSt.2 snapAndSt.1 pendingUpdates, true⟩

/-! ### External-event reconciliation (climate_external) -/

/-- One entry of the changes list: (setting, canonical value, incoming value). -/
structure Change where
  setting : TrackableSetting
  canonical : Val
  incoming : Val
deriving DecidableEq, Repr

/-- Canonical reference of _collect_canonical_changes: the baseline when
present, else the value read from the previous snapshot. -/
def canonicalFor (st : EntityState) (previousRealState : Option HAState)
    (s : TrackableSetting) : Option Val :=
  match getSsotBaseline st s with
  | some c => some c
  | none => previousRealState.bind fun prev => s.readFrom prev

/-- One comparison of _collect_canonical_changes: the incoming value of the
setting against the canonical reference; none when unreadable or
unchanged. -/
def collectOne (st : EntityState) (newState : HAState)
    (previousRealState : Option HAState) (s : TrackableSetting) : Option Change :=
  match s.readFrom newState with
  | none => none
  | some incoming =>
    match canonicalFor st previousRealState s with
    | none => none
    | some c =>
      if s.valuesMatch (some incoming) (some c) none then none
      else some ⟨s, c, incoming⟩

/-- Model of _collect_canonical_changes: for every active tracked setting,
keep the settings whose incoming value differs from the canonical one. -/
def collectCanonicalChanges (st : EntityState) (newState : HAState)
    (previousRealState : Option HAState) : List Change :=
  st.activeTrackedSettings.filterMap (collectOne st newState previousRealState)

/-- Model of _should_reject_external_change. -/
def shouldRejectExternalChange (st : EntityState) (changes : List Change) : Bool :=
  if ignoreThermostat st then true
  else if ssotActive st then
    let ssotChanges := changes.filter fun c => st.ssotSettings.contains c.setting
    decide (1 < ssotChanges.length)
  else false

/-- Loop of _find_pending_match_index: index of the LAST entry matching the
incoming value, offset by the start index i. -/
def lastMatchFrom (s : TrackableSetting) (tolerance : Option ℚ) (v : Val) :
    ℕ → List PendingEntry → Option ℕ
  | _, [] => none
  | i, e :: rest =>
    match lastMatchFrom s tolerance v (i + 1) rest with
    | some j => some j
    | none => if s.valuesMatch (some v) (some e.1) tolerance then some i else none

/-- Index of the last matching entry of a list. -/
def lastMatchIdx (s : TrackableSetting) (tolerance : Option ℚ) (v : Val)
    (l : List PendingEntry) : Option ℕ :=
  lastMatchFrom s tolerance v 0 l

/-- Model of _find_pending_match_index: purge the ledger for the setting,
then return the latest pending index matching the incoming value, using
the precision-derived pending tolerance for numeric settings.  The purge
mutates the entity, so the purged state is returned as well. -/
def findPendingMatchIndex (cfg : Config) (st : EntityState) (s : TrackableSetting)
    (incoming : Val) (now : ℚ) : Option ℕ × EntityState :=
  let st1 := cleanupPendingRequests st s now
  let tolerance := if s.isNumeric then some (pendingRequestTolerance cfg st1) else none
  (lastMatchIdx s tolerance incoming (st1.pendingSettingRequests s), st1)

/-- First loop of _consume_echo_changes: find a match index per change,
stopping at the first unmatched change (the cleanups already performed
persist in the returned state, as in the source). -/
def echoMatchLoop (cfg : Config) (now : ℚ) :
    List Change → EntityState → Option (List (TrackableSetting × ℕ)) × EntityState
  | [], st => (some [], st)
  | c :: rest, st =>
    let found := findPendingMatchIndex cfg st c.setting c.incoming now
    match found.1 with
    | none => (none, found.2)
    | some i =>
      let r := echoMatchLoop cfg now rest found.2
      (r.1.map (fun xs => (c.setting, i) :: xs), r.2)

/-- Incoming value of the first change for a setting. -/
def firstIncoming (changes : List Change) (s : TrackableSetting) : Option Val :=
  (changes.find? fun c => c.setting = s).map (·.incoming)

/-- One deletion-and-baseline step of the second loop of
_consume_echo_changes: delete the matched entry together with every earlier
entry for the setting, and adopt the incoming value as the new baseline.
(The none branch of the incoming lookup is unreachable: every match index
stems from a change.) -/
def consumeStep (changes : List Change) (s0 : EntityState) (si : TrackableSetting × ℕ) :
    EntityState :=
  let l := (s0.pendingSettingRequests si.1).drop (si.2 + 1)
  let s1 := { s0 with pendingSettingRequests := Function.update s0.pendingSettingRequests si.1 l }
  match firstIncoming changes si.1 with
  | some inc => setSsotBaseline s1 si.1 inc
  | none => s1

/-- Second loop of _consume_echo_changes, as a fold of consumeStep. -/
def applyEchoConsumption (changes : List Change) (idxs : List (TrackableSetting × ℕ))
    (st : EntityState) : EntityState :=
  idxs.foldl (consumeStep changes) st

/-- Model of _consume_echo_changes. -/
def consumeEchoChanges (cfg : Config) (st : EntityState) (changes : List Change)
    (now : ℚ) : Bool × EntityState :=
  match echoMatchLoop cfg now changes st with
  | (none, st1) => (false, st1)
  | (some idxs, st1) => (true, applyEchoConsumption changes idxs st1)

/-- Model of _handle_external_real_target_change: adopt the externally set
device target as the virtual target (constrained) and force the active
sensor selection back to the physical passthrough sensor. -/
def handleExternalRealTargetChange (cfg : Config) (st : EntityState) (realTarget : ℚ) :
    EntityState :=
  { st with virtualTargetTemperature := some (applyTargetConstraintsCore cfg st realTarget),
            selectedSensorName := cfg.physicalSensorName }

/-- SSOT baseline update for one accepted change in _accept_external_change. -/
def acceptStep (s0 : EntityState) (c : Change) : EntityState :=
  if s0.ssotSettings.contains c.setting then setSsotBaseline s0 c.setting c.incoming
  else s0

/-- Model of _accept_external_change. -/
def acceptExternalChange (cfg : Config) (st : EntityState) (changes : List Change) :
    EntityState :=
  let st1 := changes.foldl acceptStep st
  let realTarget := getRealTargetTemperature st1
  let st2 :=
    match realTarget with
    | some rt => { st1 with lastRealTargetTemp := some (.num rt) }
    | none => st1
  let tempChanged := changes.any fun c => c.setting.attrKey = "temperature"
  match realTarget with
  | some rt => if tempChanged then handleExternalRealTargetChange cfg st2 rt else st2
  | none => st2

/-- Seeding of one setting in _seed_ssot_baselines: Temperature only when
the alias is still unset; other settings are written directly into the
baseline map. -/
def seedStep (ns : HAState) (s0 : EntityState) (s : TrackableSetting) : EntityState :=
  if s = .temperature then
    match s0.lastRealTargetTemp with
    | some _ => s0
    | none =>
      match coerceTemperature (ns.getAttr "temperature") with
      | some q => { s0 with lastRealTargetTemp := some (.num q) }
      | none => s0
  else
    match s.readFrom ns with
    | some v => { s0 with ssotBaselines := Function.update s0.ssotBaselines s (some v) }
    | none => s0

/-- Model of _seed_ssot_baselines, as a fold of seedStep over the catalog. -/
def seedSsotBaselines (st : EntityState) (ns : HAState) : EntityState :=
  allSettings.foldl (seedStep ns) st

/-- supported_features attribute of a snapshot (default 0). -/
def supportedFeaturesOf (ns : HAState) : ℕ :=
  match ns.getAttr "supported_features" with
  | some (.num q) => if q.den = 1 then q.num.toNat else 0
  | _ => 0

/-- Active tracked settings derived from a capability bitmask: the two core
settings plus every setting whose gating flag is advertised. -/
def activeFromSupported (supported : ℕ) : List TrackableSetting :=
  allSettings.filter fun s =>
    match s.featureFlag with
    | none => true
    | some f => Nat.land supported f ≠ 0

/-- Model of _update_real_temperature_limits (the published
supported-features bitmask and the health bookkeeping are elided). -/
def updateRealTemperatureLimits (st : EntityState) : EntityState :=
  match st.realState with
  | none =>
    { st with devMinTemp := none, devMaxTemp := none,
              targetTempStep := none, precisionOverride := none }
  | some rs =>
    let step := coercePositiveFloat (rs.getAttr "target_temp_step")
    let realPrecision := coercePositiveFloat (rs.getAttr "precision")
    { st with
        devMinTemp := coerceTemperature (rs.getAttr "min_temp"),
        devMaxTemp := coerceTemperature (rs.getAttr "max_temp"),
        targetTempStep := step,
        precisionOverride := (match realPrecision with | some p => some p | none => step),
        activeTrackedSettings := activeFromSupported (supportedFeaturesOf rs) }

/-- Outcome of handle_real_state_event: the post-event entity state, the
returned continue-processing flag, and whether a correction task was
scheduled. -/
structure ReconcileResult where
  state : EntityState
  continueProcessing : Bool
  correctionScheduled : Bool

/-- State after the unconditional intake stage of handle_real_state_event:
the new snapshot is adopted and the temperature limits and active tracked
settings refreshed (the temperature-unit discovery is elided). -/
def stateAfterIntake (st : EntityState) (newState : Option HAState) : EntityState :=
  updateRealTemperatureLimits { st with realState := newState }

/-- State reached by an available snapshot just before the Evaluate stage of
handle_real_state_event: intake, non-off mode bookkeeping, and the seeding
branch for an active SSOT policy with an empty baseline map. -/
def evaluationState (st : EntityState) (ns : HAState) : EntityState :=
  let st1 := stateAfterIntake st (some ns)
  let st2 := rememberNonOffHvacMode st1 (some (.str ns.state))
  if ssotActive st2 && ssotBaselinesEmpty st2 then seedSsotBaselines st2 ns else st2

/-- Model of handle_real_state_event. -/
def handleRealStateEvent (cfg : Config) (st : EntityState) (newState : Option HAState)
    (now : ℚ) : ReconcileResult :=
  let prev := st.realState
  match newState with
  | none => ⟨stateAfterIntake st none, false, false⟩
  | some ns =>
    if isUnavailableState ns.state then ⟨stateAfterIntake st (some ns), true, false⟩
    else
      let st3 := evaluationState st ns
      let changes := collectCanonicalChanges st3 ns prev
      if changes.isEmpty then ⟨st3, true, false⟩
      else
        match consumeEchoChanges cfg st3 changes now with
        | (true, st4) => ⟨st4, true, false⟩
        | (false, st4) =>
          if shouldRejectExternalChange st4 changes then
            ⟨{ st4 with realState := prev }, false, true⟩
          else ⟨acceptExternalChange cfg st4 changes, true, false⟩

/-! ### Statement-support definitions -/

/-- Tolerance passed to pending-ledger lookups on behalf of a setting, as
computed inside _find_pending_match_index and _remove_pending_setting_request:
the precision-derived pending tolerance for numeric settings, none (the
matching default) for discrete ones. -/
def pendingTolFor (cfg : Config) (st : EntityState) (s : TrackableSetting) : Option ℚ :=
  if s.isNumeric then some (pendingRequestTolerance cfg st) else none

/-- A change is explained by a still-pending write: some unexpired ledger
entry for the setting matches the incoming value under the lookup tolerance. -/
def HasUnexpiredMatch (cfg : Config) (st : EntityState) (c : Change) (now : ℚ) : Prop :=
  ∃ e ∈ st.pendingSettingRequests c.setting,
    now - e.2 < PENDING_REQUEST_TIMEOUT ∧
    c.setting.valuesMatch (some c.incoming) (some e.1) (pendingTolFor cfg st c.setting) = true

instance (cfg : Config) (st : EntityState) (c : Change) (now : ℚ) :
    Decidable (HasUnexpiredMatch cfg st c now) := by
  unfold HasUnexpiredMatch
  infer_instance

/-- Replacement of the pending map, leaving every other field intact; used
to state that an operation touches nothing but the pending ledger. -/
def withPending (st : EntityState) (p : TrackableSetting → List PendingEntry) :
    EntityState :=
  { st with pendingSettingRequests := p }

/-! ### Concrete fixtures used by witnesses and counterexamples -/

/-- Baseline map with no stored values. -/
def emptyBaselines : TrackableSetting → Option Val := fun _ => none

/-- Pending ledger with no entries. -/
def emptyPending : TrackableSetting → List PendingEntry := fun _ => []

/-- Example configuration: no user limits, framework defaults 7..35 with
precision 0.1, one substitute sensor plus the physical passthrough. -/
def exCfg : Config :=
  { userMinTemp := none, userMaxTemp := none, superMinTemp := 7, superMaxTemp := 35,
    superStep := none, superPrecision := 1 / 10, physicalSensorName := "Thermostat",
    sensors := [⟨"s1", some "sensor.t1", false⟩, ⟨"Thermostat", none, true⟩] }

/-- Example device snapshot: heating, current temperature 21. -/
def exDevice : HAState :=
  ⟨"heat", [("current_temperature", .num 21)]⟩

/-- Example entity state: substitute sensor s1 reading 23.5, no pending
writes, no baselines, no policies. -/
def exState : EntityState :=
  { realState := some exDevice,
    sensorStates := [("sensor.t1", some ⟨"23.5", []⟩)],
    selectedSensorName := "s1",
    devMinTemp := none, devMaxTemp := none,
    targetTempStep := none, precisionOverride := none,
    activeTrackedSettings := [.hvacMode, .temperature],
    ssotSettings := [], itSettings := [],
    ssotBaselines := emptyBaselines,
    pendingSettingRequests := emptyPending,
    lastRealTargetTemp := none, lastRealWriteTime := 0,
    suppressSyncLogsUntil := none, virtualTargetTemperature := none,
    lastNonOffHvacMode := none }

/-- Entity state for the rollback scenarios: physical sensor selected (so
display and device current coincide at 21) and one pre-existing pending
Temperature entry recorded at time 0 with value 22.5. -/
def rollbackState : EntityState :=
  { exState with
    selectedSensorName := "Thermostat",
    pendingSettingRequests :=
      Function.update emptyPending TrackableSetting.temperature [(.num (45 / 2), 0)] }

/-- Incoming snapshot for the echo scenario: the device flips to cool. -/
def echoDevice : HAState :=
  ⟨"cool", [("current_temperature", .num 21)]⟩

/-- Entity state for the echo scenario: baseline mode heat, and a pending
hvac_mode ledger holding an old unmatched value followed by the value the
proxy just wrote. -/
def echoState : EntityState :=
  { exState with
    ssotBaselines := Function.update emptyBaselines TrackableSetting.hvacMode (some (.str "heat")),
    pendingSettingRequests :=
      Function.update emptyPending TrackableSetting.hvacMode
        [(.str "off", -50), (.str "cool", 0)] }

/-- Changes list for the standalone accept scenario: an external Temperature
change from 21 to 23. -/
def acceptChanges : List Change :=
  [⟨.temperature, .num 21, .num 23⟩]

/-- Entity state for the standalone accept scenario: the device snapshot
already shows target 23. -/
def acceptState : EntityState :=
  { exState with
    realState := some ⟨"heat", [("current_temperature", .num 21), ("temperature", .num 23)]⟩,
    ssotSettings := [.hvacMode, .temperature],
    lastRealTargetTemp := some (.num 21) }

/-- Configuration with both safety limits user-configured, for exercising
the general clamp bounds. -/
def exCfgBounded : Config :=
  { exCfg with userMinTemp := some 7, userMaxTemp := some 25 }

/-- Ledger state reached by recording six fan-mode values into an empty
ledger at time 0. -/
def fifoState : EntityState :=
  ["a", "b", "c", "d", "e", "f"].foldl
    (fun s0 v => recordSettingRequest s0 .fanMode (.str v) 0) exState

/-! ## Evaluation lemmas for the concrete fixtures -/

/-- Rounding an integer-valued rational is the identity. -/
theorem roundHalfEven_int (n : ℤ) : roundHalfEven (n : ℚ) = n := by
  unfold roundHalfEven
  norm_num

/-- One-decimal rounding fixes every value with an integral tenfold. -/
theorem roundToDecimals_one_fix (v : ℚ) (n : ℤ) (h : v * 10 = (n : ℚ)) :
    roundToDecimals v 1 = v := by
  unfold roundToDecimals
  norm_num [h, roundHalfEven_int]
  field_simp
  linarith [h]

/-- The example sensor string parses to 23.5. -/
theorem parseDecimal_example : parseDecimal "23.5" = some (47 / 2) := by
  have h : parseDecimal "23.5" =
      some ((1 : ℚ) * (((23 : ℕ) : ℚ) + ((5 : ℕ) : ℚ) / (10 : ℚ) ^ (1 : ℕ))) := rfl
  rw [h]
  norm_num

/-- Display temperature of the example fixture: the substitute sensor reads
23.5. -/
theorem currentTemperature_exState : currentTemperature exCfg exState = some (47 / 2) := by
  have h : getActiveSensorTemperature exCfg exState = parseDecimal "23.5" := rfl
  unfold currentTemperature pyOr
  rw [h, parseDecimal_example]
  norm_num

/-- Device current temperature of the example fixture. -/
theorem getRealCurrentTemperature_exState : getRealCurrentTemperature exState = some 21 := rfl

/-- With no user or device limits the safety clamp is the identity. -/
theorem applySafetyClampCore_exState (cfg : Config) (st : EntityState) (t : ℚ)
    (h1 : cfg.userMinTemp = none) (h2 : cfg.userMaxTemp = none)
    (h3 : st.devMinTemp = none) (h4 : st.devMaxTemp = none) :
    applySafetyClampCore cfg st t = t := by
  unfold applySafetyClampCore effectiveMinTemp effectiveMaxTemp
  rw [h1, h2, h3, h4]

/-- Target constraints under the example configuration (defaults 7..35,
no step, precision 0.1) reduce to one-decimal rounding inside the bounds. -/
theorem applyTargetConstraintsCore_plain (cfg : Config) (st : EntityState) (v : ℚ)
    (h1 : cfg.userMinTemp = none) (h2 : cfg.userMaxTemp = none)
    (h3 : cfg.superMinTemp = 7) (h4 : cfg.superMaxTemp = 35)
    (h5 : cfg.superStep = none) (h6 : cfg.superPrecision = 1 / 10)
    (hd1 : st.devMinTemp = none) (hd2 : st.devMaxTemp = none)
    (hd3 : st.targetTempStep = none) (hd4 : st.precisionOverride = none)
    (hv7 : 7 ≤ v) (hv35 : v ≤ 35) :
    applyTargetConstraintsCore cfg st v = roundToDecimals v 1 := by
  have hmin : minTempProp cfg st = 7 := by
    unfold minTempProp
    rw [h1, hd1, h3]
  have hmax : maxTempProp cfg st = 35 := by
    unfold maxTempProp
    rw [h2, hd2, h4]
  have hstep : targetTempStepProp cfg st = none := by
    unfold targetTempStepProp
    rw [hd3, hd4, h5]
  have hprec : precisionProp cfg st = 1 / 10 := by
    unfold precisionProp
    rw [hd4, hd3, h6]
  have hclamp : min (max v 7) 35 = v := by
    rw [max_eq_left hv7, min_eq_left hv35]
  have hiso : isclose (1 / 10) (1 / 2) (1 / 100) = false := by
    simp only [isclose, iscloseRelTol]
    norm_num [abs, max_def]
  have hlog : logPrecisionDecimals (1 / 10) = 1 := by
    unfold logPrecisionDecimals
    norm_num
  unfold applyTargetConstraintsCore roundTemperature
  rw [hmin, hmax, hstep, hprec]
  simp only [hclamp]
  norm_num [hiso, hlog]

/-- The unavailable branch of _compute_delta_target. -/
theorem computeDeltaTarget_unavailable (cfg : Config) (st : EntityState) (requested : ℚ)
    (h : currentTemperature cfg st = none ∨ getRealCurrentTemperature st = none) :
    computeDeltaTarget cfg st requested = none := by
  unfold computeDeltaTarget
  rcases h with h | h
  · cases hr : getRealCurrentTemperature st <;> simp [h, hr]
  · cases hc : currentTemperature cfg st <;> simp [h, hc]

/-- The delta formula of _compute_delta_target, absent clamping and
stepping. -/
theorem computeDeltaTarget_formula (cfg : Config) (st : EntityState) (requested d c : ℚ)
    (h1 : currentTemperature cfg st = some d)
    (h2 : getRealCurrentTemperature st = some c)
    (h3 : applySafetyClampCore cfg st (c + (applyTargetConstraintsCore cfg st requested - d)) =
      c + (applyTargetConstraintsCore cfg st requested - d))
    (h4 : applyTargetConstraintsCore cfg st (c + (applyTargetConstraintsCore cfg st requested - d)) =
      c + (applyTargetConstraintsCore cfg st requested - d)) :
    computeDeltaTarget cfg st requested =
      some (applyTargetConstraintsCore cfg st requested,
            c + (applyTargetConstraintsCore cfg st requested - d), d, c) := by
  unfold computeDeltaTarget
  rw [h1, h2]
  simp only
  rw [h3, h4]

/-- Constraining 25 under the example configuration yields 25. -/
theorem applyTargetConstraintsCore_ex_25 : applyTargetConstraintsCore exCfg exState 25 = 25 := by
  rw [applyTargetConstraintsCore_plain exCfg exState 25 rfl rfl rfl rfl rfl rfl rfl rfl rfl rfl
    (by norm_num) (by norm_num)]
  exact roundToDecimals_one_fix 25 250 (by norm_num)

/-- Constraining 22.5 under the example configuration yields 22.5. -/
theorem applyTargetConstraintsCore_ex_225 :
    applyTargetConstraintsCore exCfg exState (45 / 2) = 45 / 2 := by
  rw [applyTargetConstraintsCore_plain exCfg exState (45 / 2) rfl rfl rfl rfl rfl rfl rfl rfl
    rfl rfl (by norm_num) (by norm_num)]
  exact roundToDecimals_one_fix (45 / 2) 225 (by norm_num)

/-! ## Claim theorems -/

/-- Delta-target computation at the example fixture: virtual 25 with sensor
23.5 and device current 21 yields constrained 25 and device target 22.5. -/
theorem computeDeltaTarget_exState :
    computeDeltaTarget exCfg exState 25 = some (25, 45 / 2, 47 / 2, 21) := by
  have h4 : applyTargetConstraintsCore exCfg exState
      (21 + (applyTargetConstraintsCore exCfg exState 25 - 47 / 2)) =
      21 + (applyTargetConstraintsCore exCfg exState 25 - 47 / 2) := by
    rw [applyTargetConstraintsCore_ex_25,
      show (21 : ℚ) + (25 - 47 / 2) = 45 / 2 by norm_num]
    exact applyTargetConstraintsCore_ex_225
  rw [computeDeltaTarget_formula exCfg exState 25 (47 / 2) 21 currentTemperature_exState
    getRealCurrentTemperature_exState
    (applySafetyClampCore_exState exCfg exState _ rfl rfl rfl rfl) h4,
    applyTargetConstraintsCore_ex_25]
  norm_num

/-- Claim C5: computeDeviceTarget fails (returns null) when the display or
device current reading is unavailable; otherwise it produces
deviceTargetRaw = deviceCurrentTemp + (constrainedVirtual - displayTemp)
absent clamping and stepping; in particular virtual 25.0 with sensor 23.5
and device current 21.0 yields device target 22.5. -/
theorem claim_C5_compute_delta_target :
    (∀ cfg st requested,
      currentTemperature cfg st = none ∨ getRealCurrentTemperature st = none →
      computeDeltaTarget cfg st requested = none) ∧
    (∀ cfg st requested d c,
      currentTemperature cfg st = some d →
      getRealCurrentTemperature st = some c →
      applySafetyClampCore cfg st (c + (applyTargetConstraintsCore cfg st requested - d)) =
        c + (applyTargetConstraintsCore cfg st requested - d) →
      applyTargetConstraintsCore cfg st (c + (applyTargetConstraintsCore cfg st requested - d)) =
        c + (applyTargetConstraintsCore cfg st requested - d) →
      computeDeltaTarget cfg st requested =
        some (applyTargetConstraintsCore cfg st requested,
              c + (applyTargetConstraintsCore cfg st requested - d), d, c)) ∧
    computeDeltaTarget exCfg exState 25 = some (25, 45 / 2, 47 / 2, 21) := by
  exact ⟨computeDeltaTarget_unavailable, computeDeltaTarget_formula,
    computeDeltaTarget_exState⟩

/-- Witness for claim C5: the theorem applied at the concrete fixtures, with
an absent device reading and with both readings available. -/
theorem claim_C5_witness :
    computeDeltaTarget exCfg { exState with realState := none } 25 = none ∧
    computeDeltaTarget exCfg exState 25 =
      some (applyTargetConstraintsCore exCfg exState 25,
            21 + (applyTargetConstraintsCore exCfg exState 25 - 47 / 2), 47 / 2, 21) :=
  ⟨claim_C5_compute_delta_target.1 exCfg _ 25 (Or.inr rfl),
   claim_C5_compute_delta_target.2.1 exCfg exState 25 (47 / 2) 21 currentTemperature_exState
     getRealCurrentTemperature_exState
     (applySafetyClampCore_exState exCfg exState _ rfl rfl rfl rfl)
     (by
       rw [applyTargetConstraintsCore_ex_25,
         show (21 : ℚ) + (25 - 47 / 2) = 45 / 2 by norm_num]
       exact applyTargetConstraintsCore_ex_225)⟩

/-- Claim C6: the safety clamp keeps every calculated target inside the
effective user-over-device [min, max] bounds; a raw 47.5 with user max 25.0
(shadowing a device max of 30) clamps to 25.0; an inverted configuration
(effective min above effective max) clamps to the effective max. -/
theorem claim_C6_safety_clamp :
    (∀ cfg st t mn mx,
      effectiveMinTemp cfg st = some mn → effectiveMaxTemp cfg st = some mx →
      ((mn ≤ mx →
        mn ≤ applySafetyClampCore cfg st t ∧ applySafetyClampCore cfg st t ≤ mx) ∧
       (mx < mn → applySafetyClampCore cfg st t = mx))) ∧
    applySafetyClampCore { exCfg with userMaxTemp := some 25 }
      { exState with devMaxTemp := some 30 } (475 / 10) = 25 ∧
    applySafetyClampCore { exCfg with userMinTemp := some 30, userMaxTemp := some 25 }
      exState 20 = 25 := by
  refine ⟨?_,
    by norm_num [applySafetyClampCore, effectiveMinTemp, effectiveMaxTemp, exCfg, exState],
    by norm_num [applySafetyClampCore, effectiveMinTemp, effectiveMaxTemp, exCfg, exState]⟩
  intro cfg st t mn mx hmn hmx
  have hbody : applySafetyClampCore cfg st t =
      if mx < mn then mx else if t < mn then mn else if mx < t then mx else t := by
    unfold applySafetyClampCore
    rw [hmn, hmx]
  rw [hbody]
  constructor
  · intro hle
    split_ifs <;> constructor <;> linarith
  · intro hlt
    rw [if_pos hlt]

/-- Witness for claim C6: the general bounds applied at a concrete raw
target of 47.5 under user limits 7..25. -/
theorem claim_C6_witness :
    7 ≤ applySafetyClampCore exCfgBounded exState (475 / 10) ∧
    applySafetyClampCore exCfgBounded exState (475 / 10) ≤ 25 :=
  (claim_C6_safety_clamp.1 exCfgBounded exState (475 / 10) 7 25 rfl rfl).1 (by norm_num)

/-- A has-lookup is a scan of the purged ledger for the setting. -/
theorem hasPending_eval (st : EntityState) (s : TrackableSetting) (v : Val)
    (tolerance : Option ℚ) (now : ℚ) :
    (hasPendingSettingRequest st s v tolerance now).1 =
      hasMatchList s v tolerance (cleanupList now (st.pendingSettingRequests s)) := by
  simp [hasPendingSettingRequest, cleanupPendingRequests, Function.update_same]

/-- The six-record fixture holds the last five values, oldest first evicted. -/
theorem fifoState_pending : fifoState.pendingSettingRequests .fanMode =
    [(.str "b", 0), (.str "c", 0), (.str "d", 0), (.str "e", 0), (.str "f", 0)] := by
  simp [fifoState, exState, emptyPending, recordSettingRequest, recordList,
    MAX_TRACKED_REAL_TARGET_REQUESTS, Function.update_same]

/-- Claim C7: a record operation never leaves more than 5 entries in a
ledger holding at most 5, and on overflow the oldest entry is evicted
first: recording six values leaves the first absent and the last present. -/
theorem claim_C7_pending_capacity_fifo :
    (∀ st s v now, (st.pendingSettingRequests s).length ≤ 5 →
      ((recordSettingRequest st s v now).pendingSettingRequests s).length ≤ 5) ∧
    (hasPendingSettingRequest fifoState .fanMode (.str "a") none 0).1 = false ∧
    (hasPendingSettingRequest fifoState .fanMode (.str "f") none 0).1 = true := by
  refine ⟨?_, ?_, ?_⟩
  · intro st s v now h
    simp only [recordSettingRequest, Function.update_same, recordList,
      MAX_TRACKED_REAL_TARGET_REQUESTS]
    split_ifs with hlen
    · simp only [List.length_tail, List.length_append, List.length_singleton]
      omega
    · simp only [List.length_append, List.length_singleton] at hlen ⊢
      omega
  · rw [hasPending_eval, fifoState_pending]
    norm_num [cleanupList, PENDING_REQUEST_TIMEOUT, hasMatchList,
      TrackableSetting.valuesMatch, TrackableSetting.isNumeric]
    decide
  · rw [hasPending_eval, fifoState_pending]
    norm_num [cleanupList, PENDING_REQUEST_TIMEOUT, hasMatchList,
      TrackableSetting.valuesMatch, TrackableSetting.isNumeric]

/-- Witness for claim C7: capacity preservation applied at a concrete
record into the empty example ledger. -/
theorem claim_C7_witness :
    ((recordSettingRequest exState .fanMode (.str "x") 0).pendingSettingRequests .fanMode).length ≤ 5 :=
  claim_C7_pending_capacity_fifo.1 exState .fanMode (.str "x") 0 (by simp [exState, emptyPending])

/-- Claim C8: every has-lookup first purges entries older than the
30-second timeout, so an entry recorded at time T contributes to no lookup
at T + 31 or later: if a lookup succeeds after the record, it would have
succeeded without it. -/
theorem claim_C8_pending_expiry :
    (∀ st s vT T v tolerance now, T + 31 ≤ now →
      (hasPendingSettingRequest (recordSettingRequest st s vT T) s v tolerance now).1 = true →
      (hasPendingSettingRequest st s v tolerance now).1 = true) ∧
    (∀ st s v tolerance now,
      (hasPendingSettingRequest st s v tolerance now).1 =
        hasMatchList s v tolerance (cleanupList now (st.pendingSettingRequests s))) := by
  constructor
  · intro st s vT T v tolerance now hT h
    simp only [hasPendingSettingRequest, cleanupPendingRequests, Function.update_same,
      recordSettingRequest, hasMatchList, List.any_eq_true] at h ⊢
    obtain ⟨e, he, hm⟩ := h
    rw [cleanupList, List.mem_filter] at he
    obtain ⟨hmem, hage⟩ := he
    have hmem2 : e ∈ st.pendingSettingRequests s ++ [(vT, T)] := by
      rw [recordList] at hmem
      split_ifs at hmem
      · exact (List.tail_sublist _).subset hmem
      · exact hmem
    rcases List.mem_append.mp hmem2 with h2 | h2
    · refine ⟨e, ?_, hm⟩
      rw [cleanupList, List.mem_filter]
      exact ⟨h2, hage⟩
    · exfalso
      have : e = (vT, T) := List.mem_singleton.mp h2
      rw [this] at hage
      simp only [decide_eq_true_eq] at hage
      have : now - T < PENDING_REQUEST_TIMEOUT := hage
      rw [PENDING_REQUEST_TIMEOUT] at this
      linarith
  · exact hasPending_eval

/-- Witness for claim C8: the expiry implication applied to the echo
fixture, whose pending entry recorded at time 0 is purged at time 31. -/
theorem claim_C8_witness :
    ((hasPendingSettingRequest (recordSettingRequest echoState .fanMode (.str "low") 0)
        .fanMode (.str "low") none 31).1 = true →
      (hasPendingSettingRequest echoState .fanMode (.str "low") none 31).1 = true) ∧
    (hasPendingSettingRequest (recordSettingRequest echoState .fanMode (.str "low") 0)
        .fanMode (.str "low") none 31).1 = false :=
  ⟨claim_C8_pending_expiry.1 echoState .fanMode (.str "low") 0 (.str "low") none 31
     (by norm_num),
   by
     rw [hasPending_eval]
     have hp : (recordSettingRequest echoState .fanMode (.str "low") 0).pendingSettingRequests
         .fanMode = [(.str "low", 0)] := by
       simp [recordSettingRequest, recordList, echoState, exState, emptyPending,
         MAX_TRACKED_REAL_TARGET_REQUESTS, Function.update_same, Function.update_apply]
     rw [hp]
     norm_num [cleanupList, PENDING_REQUEST_TIMEOUT, hasMatchList]⟩

/-- Claim C9 (amended): valuesMatch is reflexive on well-typed values, null
matches only null, and a non-null value never matches null; numeric
matching follows math.isclose with its default 1e-9 relative term — values
match when the absolute difference is at most the maximum of the tolerance
(default 0.5) and 1e-9 times the larger magnitude; discrete matching is
exact equality of normalized values. -/
theorem claim_C9_values_match :
    (∀ (s : TrackableSetting) (v : Val) (tolerance : Option ℚ),
      (s.isNumeric = false ∨ ∃ q, v = .num q) →
      s.valuesMatch (some v) (some v) tolerance = true) ∧
    (∀ (s : TrackableSetting) (tolerance : Option ℚ),
      s.valuesMatch none none tolerance = true) ∧
    (∀ (s : TrackableSetting) (v : Val) (tolerance : Option ℚ),
      s.valuesMatch (some v) none tolerance = false) ∧
    (∀ (s : TrackableSetting) (a b : ℚ) (tolerance : Option ℚ), s.isNumeric = true →
      (s.valuesMatch (some (.num a)) (some (.num b)) tolerance = true ↔
        |a - b| ≤ max (iscloseRelTol * max |a| |b|)
          (tolerance.getD PENDING_REQUEST_TOLERANCE_MAX))) ∧
    (∀ (s : TrackableSetting) (a b : Val) (tolerance : Option ℚ), s.isNumeric = false →
      (s.valuesMatch (some a) (some b) tolerance = true ↔ a = b)) := by
  refine ⟨?_, ?_, ?_, ?_, ?_⟩
  · intro s v tolerance h
    rcases h with h | ⟨q, rfl⟩
    · simp [TrackableSetting.valuesMatch, h]
    · cases hn : s.isNumeric
      · simp [TrackableSetting.valuesMatch, hn]
      · simp only [TrackableSetting.valuesMatch, hn, if_true, isclose, sub_self, abs_zero,
          decide_eq_true_eq]
        exact le_max_of_le_left
          (mul_nonneg (by norm_num [iscloseRelTol])
            ((abs_nonneg q).trans (le_max_left _ _)))
  · intro s tolerance
    rfl
  · intro s v tolerance
    rfl
  · intro s a b tolerance h
    simp [TrackableSetting.valuesMatch, h, isclose]
  · intro s a b tolerance h
    simp [TrackableSetting.valuesMatch, h]

/-- Counterexample for claim C9 as stated: with the default tolerance 0.5,
two numeric values 4000000000 and 4000000001 match (because of the 1e-9
relative term of math.isclose) although their absolute difference exceeds
the tolerance. -/
theorem claim_C9_counterexample :
    TrackableSetting.temperature.valuesMatch (some (.num 4000000000))
      (some (.num 4000000001)) none = true ∧
    ¬ (|(4000000000 : ℚ) - 4000000001| ≤ 1 / 2) := by
  constructor
  · simp only [TrackableSetting.valuesMatch, TrackableSetting.isNumeric, if_true, isclose,
      iscloseRelTol, Option.getD, PENDING_REQUEST_TOLERANCE_MAX, decide_eq_true_eq]
    norm_num [abs, max_def]
  · norm_num [abs, max_def]

/-- Witness for claim C9: reflexivity applied at a concrete numeric value
and the numeric rule applied at concrete inputs. -/
theorem claim_C9_witness :
    TrackableSetting.temperature.valuesMatch (some (.num 22)) (some (.num 22)) none = true ∧
    (TrackableSetting.temperature.valuesMatch (some (.num 1)) (some (.num 2))
        (some (1 / 2)) = true ↔
      |(1 : ℚ) - 2| ≤ max (iscloseRelTol * max |(1 : ℚ)| |(2 : ℚ)|)
        ((some ((1 : ℚ) / 2)).getD PENDING_REQUEST_TOLERANCE_MAX)) :=
  ⟨claim_C9_values_match.1 .temperature (.num 22) none (Or.inr ⟨22, rfl⟩),
   claim_C9_values_match.2.2.2.1 .temperature 1 2 (some (1 / 2)) rfl⟩

/-- Claim C2: the policy test rejects exactly when some Ignore-Device
setting is configured, or SSOT is active and more than one SSOT-tracked
setting is among the changed settings; in particular a single SSOT-tracked
change, or changes only outside both sets, pass through. -/
theorem claim_C2_policy_rejection (st : EntityState) (changes : List Change) :
    shouldRejectExternalChange st changes = true ↔
      (st.itSettings ≠ [] ∨ (st.ssotSettings ≠ [] ∧
        1 < (changes.filter fun c => st.ssotSettings.contains c.setting).length)) := by
  unfold shouldRejectExternalChange ignoreThermostat ssotActive
  cases hit : st.itSettings.isEmpty <;> cases hss : st.ssotSettings.isEmpty <;>
    simp_all [List.isEmpty_iff]

/-! ## Baseline-setter and ledger lemmas -/

/-- Numeric reflexivity of valuesMatch at any tolerance. -/
theorem valuesMatch_refl_num (s : TrackableSetting) (q : ℚ) (tolerance : Option ℚ) :
    s.valuesMatch (some (.num q)) (some (.num q)) tolerance = true := by
  cases hn : s.isNumeric
  · simp [TrackableSetting.valuesMatch, hn]
  · simp only [TrackableSetting.valuesMatch, hn, if_true, isclose, sub_self, abs_zero,
      decide_eq_true_eq]
    exact le_max_of_le_left
      (mul_nonneg (by norm_num [iscloseRelTol]) ((abs_nonneg q).trans (le_max_left _ _)))

/-- Setting a baseline leaves every field outside the baseline store
untouched. -/
theorem setSsot_fields (st : EntityState) (s : TrackableSetting) (v : Val) :
    (setSsotBaseline st s v).pendingSettingRequests = st.pendingSettingRequests ∧
    (setSsotBaseline st s v).realState = st.realState ∧
    (setSsotBaseline st s v).devMinTemp = st.devMinTemp ∧
    (setSsotBaseline st s v).devMaxTemp = st.devMaxTemp ∧
    (setSsotBaseline st s v).targetTempStep = st.targetTempStep ∧
    (setSsotBaseline st s v).precisionOverride = st.precisionOverride ∧
    (setSsotBaseline st s v).ssotSettings = st.ssotSettings ∧
    (setSsotBaseline st s v).itSettings = st.itSettings ∧
    (setSsotBaseline st s v).activeTrackedSettings = st.activeTrackedSettings ∧
    (setSsotBaseline st s v).selectedSensorName = st.selectedSensorName ∧
    (setSsotBaseline st s v).virtualTargetTemperature = st.virtualTargetTemperature := by
  cases v <;> simp only [setSsotBaseline, rememberNonOffHvacMode] <;> split_ifs <;>
    exact ⟨rfl, rfl, rfl, rfl, rfl, rfl, rfl, rfl, rfl, rfl, rfl⟩

/-- Reading back a freshly set baseline returns the set value. -/
theorem getSsot_setSsot_same (st : EntityState) (s : TrackableSetting) (v : Val) :
    getSsotBaseline (setSsotBaseline st s v) s = some v := by
  by_cases h1 : s = .temperature
  · subst h1
    simp [getSsotBaseline, setSsotBaseline]
  · by_cases h2 : s = .hvacMode
    · subst h2
      cases v <;>
        simp only [getSsotBaseline, setSsotBaseline, rememberNonOffHvacMode] <;>
        split_ifs <;> simp [Function.update_same]
    · simp [getSsotBaseline, setSsotBaseline, h1, h2, Function.update_same]

/-- Setting one baseline leaves every other baseline unchanged. -/
theorem getSsot_setSsot_ne (st : EntityState) (s : TrackableSetting) (v : Val)
    (t : TrackableSetting) (h : t ≠ s) :
    getSsotBaseline (setSsotBaseline st s v) t = getSsotBaseline st t := by
  by_cases h1 : s = .temperature
  · subst h1
    simp [getSsotBaseline, setSsotBaseline, h]
  · by_cases h2 : s = .hvacMode
    · subst h2
      cases v <;>
        simp only [setSsotBaseline, rememberNonOffHvacMode] <;> split_ifs <;>
          simp_all [getSsotBaseline, Function.update_noteq h]
    · unfold setSsotBaseline
      split_ifs
      by_cases h3 : t = .temperature
      · subst h3
        simp [getSsotBaseline]
      · simp [getSsotBaseline, h3, Function.update_noteq h]

/-- Purging one ledger: the pending map pointwise. -/
theorem cleanup_pending_apply (st : EntityState) (s : TrackableSetting) (now : ℚ)
    (t : TrackableSetting) :
    (cleanupPendingRequests st s now).pendingSettingRequests t =
      if t = s then cleanupList now (st.pendingSettingRequests s)
      else st.pendingSettingRequests t := by
  simp [cleanupPendingRequests, Function.update_apply]

/-- Purging is idempotent. -/
theorem cleanupList_idem (now : ℚ) (l : List PendingEntry) :
    cleanupList now (cleanupList now l) = cleanupList now l := by
  unfold cleanupList
  rw [List.filter_filter]
  congr 1
  funext e
  rw [Bool.and_self]

/-! ## Latest-match scan lemmas -/

/-- A failed scan means no entry matches. -/
theorem lastMatchFrom_none (s : TrackableSetting) (tolerance : Option ℚ) (v : Val) :
    ∀ (l : List PendingEntry) (i : ℕ), lastMatchFrom s tolerance v i l = none →
      ∀ e ∈ l, s.valuesMatch (some v) (some e.1) tolerance = false := by
  intro l
  induction l with
  | nil =>
    intro i _ e he
    simp at he
  | cons e rest ih =>
    intro i h f hf
    unfold lastMatchFrom at h
    cases hr : lastMatchFrom s tolerance v (i + 1) rest with
    | some j =>
      rw [hr] at h
      exact absurd h (by simp)
    | none =>
      rw [hr] at h
      rcases List.mem_cons.mp hf with hfe | hfr
      · subst hfe
        cases hm : s.valuesMatch (some v) (some f.1) tolerance
        · rfl
        · rw [hm] at h
          simp at h
      · exact ih (i + 1) hr f hfr

/-- A matching entry guarantees a successful scan. -/
theorem lastMatchFrom_isSome (s : TrackableSetting) (tolerance : Option ℚ) (v : Val) :
    ∀ (l : List PendingEntry) (i : ℕ) (e : PendingEntry), e ∈ l →
      s.valuesMatch (some v) (some e.1) tolerance = true →
      (lastMatchFrom s tolerance v i l).isSome = true := by
  intro l
  induction l with
  | nil =>
    intro i e he
    simp at he
  | cons e0 rest ih =>
    intro i e he hm
    unfold lastMatchFrom
    cases hr : lastMatchFrom s tolerance v (i + 1) rest with
    | some j => simp
    | none =>
      rcases List.mem_cons.mp he with hee | her
      · subst hee
        simp [hm]
      · exact absurd (ih (i + 1) e her hm) (by simp [hr])

/-- A successful scan returns the highest matching index: the entry at the
returned offset matches and nothing after it does. -/
theorem lastMatchFrom_spec (s : TrackableSetting) (tolerance : Option ℚ) (v : Val) :
    ∀ (l : List PendingEntry) (i j : ℕ), lastMatchFrom s tolerance v i l = some j →
      i ≤ j ∧ ∃ h : j - i < l.length,
        s.valuesMatch (some v) (some (l.get ⟨j - i, h⟩).1) tolerance = true ∧
        ∀ e ∈ l.drop (j - i + 1), s.valuesMatch (some v) (some e.1) tolerance = false := by
  intro l
  induction l with
  | nil =>
    intro i j h
    simp [lastMatchFrom] at h
  | cons e rest ih =>
    intro i j h
    unfold lastMatchFrom at h
    cases hr : lastMatchFrom s tolerance v (i + 1) rest with
    | some j0 =>
      rw [hr] at h
      have hj : j0 = j := by injection h
      subst hj
      obtain ⟨hle, hlt, hmatch, hdrop⟩ := ih (i + 1) j0 hr
      refine ⟨by omega, ?_⟩
      have hji : j0 - i = (j0 - (i + 1)) + 1 := by omega
      rw [hji]
      refine ⟨?_, ?_, ?_⟩
      · simp only [List.length_cons]
        omega
      · simpa using hmatch
      · intro f hf
        apply hdrop
        simpa using hf
    | none =>
      rw [hr] at h
      cases hm : s.valuesMatch (some v) (some e.1) tolerance
      · rw [hm] at h
        simp at h
      · rw [hm] at h
        simp at h
        subst h
        have h0 : i - i = 0 := by omega
        rw [h0]
        refine ⟨le_refl i, by simp, by simpa using hm, ?_⟩
        intro f hf
        exact lastMatchFrom_none s tolerance v rest (i + 1) hr f (by simpa using hf)

/-! ## Echo-loop soundness -/

/-- Unfolding of _find_pending_match_index into the purged scan. -/
theorem findPendingMatchIndex_eq (cfg : Config) (st : EntityState) (s : TrackableSetting)
    (incoming : Val) (now : ℚ) :
    findPendingMatchIndex cfg st s incoming now =
      (lastMatchIdx s (pendingTolFor cfg st s) incoming
        (cleanupList now (st.pendingSettingRequests s)),
       cleanupPendingRequests st s now) := by
  simp only [findPendingMatchIndex, pendingTolFor]
  rw [cleanup_pending_apply, if_pos rfl]
  rfl

/-- The first loop of _consume_echo_changes succeeds when every change has
a still-pending unexpired match, and it only purges ledgers. -/
theorem echoMatchLoop_sound (cfg : Config) (now : ℚ) :
    ∀ (changes : List Change) (st : EntityState),
      (∀ c ∈ changes, HasUnexpiredMatch cfg st c now) →
      ∃ idxs st1,
        echoMatchLoop cfg now changes st = (some idxs, st1) ∧
        List.Forall₂ (fun c (si : TrackableSetting × ℕ) =>
          si.1 = c.setting ∧
          lastMatchIdx c.setting (pendingTolFor cfg st c.setting) c.incoming
            (cleanupList now (st.pendingSettingRequests c.setting)) = some si.2) changes idxs ∧
        (∀ t, st1.pendingSettingRequests t = st.pendingSettingRequests t ∨
          st1.pendingSettingRequests t = cleanupList now (st.pendingSettingRequests t)) ∧
        (∀ c ∈ changes, st1.pendingSettingRequests c.setting =
          cleanupList now (st.pendingSettingRequests c.setting)) ∧
        st1 = withPending st st1.pendingSettingRequests := by
  intro changes
  induction changes with
  | nil =>
    intro st _
    exact ⟨[], st, rfl, List.Forall₂.nil, fun t => Or.inl rfl, by simp, rfl⟩
  | cons c rest ih =>
    intro st H
    obtain ⟨e, he, hage, hm⟩ := H c (List.mem_cons_self c rest)
    have hstp : ∀ t, (cleanupPendingRequests st c.setting now).pendingSettingRequests t =
        if t = c.setting then cleanupList now (st.pendingSettingRequests c.setting)
        else st.pendingSettingRequests t := cleanup_pending_apply st c.setting now
    have hmem : e ∈ cleanupList now (st.pendingSettingRequests c.setting) := by
      rw [cleanupList, List.mem_filter]
      exact ⟨he, by simpa using hage⟩
    have hsome : (lastMatchIdx c.setting (pendingTolFor cfg st c.setting) c.incoming
        (cleanupList now (st.pendingSettingRequests c.setting))).isSome = true :=
      lastMatchFrom_isSome _ _ _ _ 0 e hmem hm
    obtain ⟨i, hi⟩ := Option.isSome_iff_exists.mp hsome
    have H' : ∀ c' ∈ rest, HasUnexpiredMatch cfg (cleanupPendingRequests st c.setting now) c' now := by
      intro c' hc'
      obtain ⟨e', he', hage', hm'⟩ := H c' (List.mem_cons_of_mem c hc')
      have htol : pendingTolFor cfg (cleanupPendingRequests st c.setting now) c'.setting =
          pendingTolFor cfg st c'.setting := rfl
      refine ⟨e', ?_, hage', by rw [htol]; exact hm'⟩
      rw [hstp]
      by_cases hts : c'.setting = c.setting
      · rw [if_pos hts, cleanupList, List.mem_filter]
        rw [hts] at he'
        exact ⟨he', by simpa using hage'⟩
      · rw [if_neg hts]
        exact he'
    obtain ⟨idxs', st1, heq, hfa, hdisj, hclean, hshape⟩ :=
      ih (cleanupPendingRequests st c.setting now) H'
    refine ⟨(c.setting, i) :: idxs', st1, ?_, ?_, ?_, ?_, ?_⟩
    · simp only [echoMatchLoop]
      rw [findPendingMatchIndex_eq, hi]
      simp only
      rw [heq]
      rfl
    · refine List.Forall₂.cons ⟨rfl, hi⟩ (hfa.imp ?_)
      rintro c' si ⟨h1, h2⟩
      refine ⟨h1, ?_⟩
      have htol : pendingTolFor cfg (cleanupPendingRequests st c.setting now) c'.setting =
          pendingTolFor cfg st c'.setting := rfl
      rw [htol, hstp] at h2
      by_cases hts : c'.setting = c.setting
      · rw [if_pos hts, cleanupList_idem, ← hts] at h2
        exact h2
      · rw [if_neg hts] at h2
        exact h2
    · intro t
      rcases hdisj t with hd | hd <;> rw [hstp] at hd <;> by_cases hts : t = c.setting
      · rw [if_pos hts, ← hts] at hd
        exact Or.inr hd
      · rw [if_neg hts] at hd
        exact Or.inl hd
      · rw [if_pos hts, cleanupList_idem, ← hts] at hd
        exact Or.inr hd
      · rw [if_neg hts] at hd
        exact Or.inr hd
    · intro c'' hc''
      rcases List.mem_cons.mp hc'' with hcc | hcr
      · subst hcc
        rcases hdisj c''.setting with hd | hd <;> rw [hstp, if_pos rfl] at hd
        · exact hd
        · rw [cleanupList_idem] at hd
          exact hd
      · have hcl := hclean c'' hcr
        rw [hstp] at hcl
        by_cases hts : c''.setting = c.setting
        · rw [if_pos hts, cleanupList_idem, ← hts] at hcl
          exact hcl
        · rw [if_neg hts] at hcl
          exact hcl
    · exact hshape

/-! ## Echo-consumption soundness -/

/-- Fold step equation of applyEchoConsumption. -/
theorem applyEcho_cons (changes : List Change) (si : TrackableSetting × ℕ)
    (rest : List (TrackableSetting × ℕ)) (st : EntityState) :
    applyEchoConsumption changes (si :: rest) st =
      applyEchoConsumption changes rest (consumeStep changes st si) := rfl

/-- A consume step leaves the ledgers of other settings alone. -/
theorem consumeStep_pending_ne (changes : List Change) (s0 : EntityState)
    (si : TrackableSetting × ℕ) (t : TrackableSetting) (h : si.1 ≠ t) :
    (consumeStep changes s0 si).pendingSettingRequests t = s0.pendingSettingRequests t := by
  unfold consumeStep
  cases hfi : firstIncoming changes si.1 with
  | none => exact Function.update_noteq (Ne.symm h) _ _
  | some inc =>
    rw [(setSsot_fields _ si.1 inc).1]
    exact Function.update_noteq (Ne.symm h) _ _

/-- A consume step deletes the matched prefix of its own ledger. -/
theorem consumeStep_pending_self (changes : List Change) (s0 : EntityState)
    (si : TrackableSetting × ℕ) :
    (consumeStep changes s0 si).pendingSettingRequests si.1 =
      (s0.pendingSettingRequests si.1).drop (si.2 + 1) := by
  unfold consumeStep
  cases hfi : firstIncoming changes si.1 with
  | none => exact Function.update_same _ _ _
  | some inc =>
    rw [(setSsot_fields _ si.1 inc).1]
    exact Function.update_same _ _ _

/-- A consume step leaves the baselines of other settings alone. -/
theorem consumeStep_getSsot_ne (changes : List Change) (s0 : EntityState)
    (si : TrackableSetting × ℕ) (t : TrackableSetting) (h : si.1 ≠ t) :
    getSsotBaseline (consumeStep changes s0 si) t = getSsotBaseline s0 t := by
  unfold consumeStep
  cases hfi : firstIncoming changes si.1 with
  | none => rfl
  | some inc => exact getSsot_setSsot_ne _ si.1 inc t (Ne.symm h)

/-- A consume step adopts the incoming value as the baseline of its setting. -/
theorem consumeStep_getSsot_self (changes : List Change) (s0 : EntityState)
    (si : TrackableSetting × ℕ) (inc : Val) (h : firstIncoming changes si.1 = some inc) :
    getSsotBaseline (consumeStep changes s0 si) si.1 = some inc := by
  unfold consumeStep
  rw [h]
  exact getSsot_setSsot_same _ si.1 inc

/-- Settings untouched by the consumption fold keep ledger and baseline. -/
theorem applyEcho_untouched (changes : List Change) :
    ∀ (idxs : List (TrackableSetting × ℕ)) (st : EntityState) (t : TrackableSetting),
      (∀ si ∈ idxs, si.1 ≠ t) →
      (applyEchoConsumption changes idxs st).pendingSettingRequests t =
        st.pendingSettingRequests t ∧
      getSsotBaseline (applyEchoConsumption changes idxs st) t = getSsotBaseline st t := by
  intro idxs
  induction idxs with
  | nil =>
    intro st t _
    exact ⟨rfl, rfl⟩
  | cons si rest ih =>
    intro st t h
    have hne : si.1 ≠ t := h si (List.mem_cons_self si rest)
    have hrest : ∀ si' ∈ rest, si'.1 ≠ t := fun si' hs => h si' (List.mem_cons_of_mem si hs)
    rw [applyEcho_cons]
    obtain ⟨h1, h2⟩ := ih (consumeStep changes st si) t hrest
    exact ⟨h1.trans (consumeStep_pending_ne changes st si t hne),
           h2.trans (consumeStep_getSsot_ne changes st si t hne)⟩

/-- Effect of the consumption fold on each consumed setting: its ledger is
cut after the matched index and its baseline becomes the first incoming
value recorded for it. -/
theorem applyEcho_spec (changes : List Change) :
    ∀ (idxs : List (TrackableSetting × ℕ)) (st : EntityState),
      (idxs.map Prod.fst).Nodup →
      ∀ si ∈ idxs,
        (applyEchoConsumption changes idxs st).pendingSettingRequests si.1 =
          (st.pendingSettingRequests si.1).drop (si.2 + 1) ∧
        ∀ inc, firstIncoming changes si.1 = some inc →
          getSsotBaseline (applyEchoConsumption changes idxs st) si.1 = some inc := by
  intro idxs
  induction idxs with
  | nil =>
    intro st _ si hsi
    simp at hsi
  | cons si0 rest ih =>
    intro st hnd si hsi
    simp only [List.map_cons, List.nodup_cons] at hnd
    obtain ⟨hnd0, hndr⟩ := hnd
    rcases List.mem_cons.mp hsi with rfl | hsr
    · have huntouched : ∀ si' ∈ rest, si'.1 ≠ si.1 := by
        intro si' hs he
        exact hnd0 (he ▸ List.mem_map_of_mem Prod.fst hs)
      constructor
      · rw [applyEcho_cons,
          (applyEcho_untouched changes rest (consumeStep changes st si) si.1 huntouched).1,
          consumeStep_pending_self]
      · intro inc hinc
        rw [applyEcho_cons,
          (applyEcho_untouched changes rest (consumeStep changes st si) si.1 huntouched).2,
          consumeStep_getSsot_self changes st si inc hinc]
    · have hne : si0.1 ≠ si.1 := by
        intro he
        exact hnd0 (he ▸ List.mem_map_of_mem Prod.fst hsr)
      obtain ⟨h1, h2⟩ := ih (consumeStep changes st si0) hndr si hsr
      constructor
      · rw [applyEcho_cons, h1, consumeStep_pending_ne changes st si0 si.1 hne]
      · intro inc hinc
        rw [applyEcho_cons]
        exact h2 inc hinc

/-- An aligned pair exists on the right for every left member. -/
theorem forall2_exists_right {α β : Type} {R : α → β → Prop} :
    ∀ {l1 : List α} {l2 : List β}, List.Forall₂ R l1 l2 →
      ∀ a ∈ l1, ∃ b ∈ l2, R a b := by
  intro l1 l2 h
  induction h with
  | nil =>
    intro a ha
    simp at ha
  | cons hR _ ih =>
    intro a ha
    rcases List.mem_cons.mp ha with rfl | har
    · exact ⟨_, List.mem_cons_self _ _, hR⟩
    · obtain ⟨b, hb, hRb⟩ := ih a har
      exact ⟨b, List.mem_cons_of_mem _ hb, hRb⟩

/-- When the relation forces equal keys, aligned lists have equal key maps. -/
theorem forall2_fst_eq {β : Type} {R : Change → (TrackableSetting × β) → Prop}
    (hkey : ∀ a b, R a b → b.1 = a.setting) :
    ∀ {l1 : List Change} {l2 : List (TrackableSetting × β)}, List.Forall₂ R l1 l2 →
      l2.map Prod.fst = l1.map Change.setting := by
  intro l1 l2 h
  induction h with
  | nil => rfl
  | cons hR _ ih =>
    simp only [List.map_cons, ih, List.cons.injEq]
    exact ⟨hkey _ _ hR, trivial⟩

/-- With distinct settings, the first change found for the setting of a
member change is that change itself. -/
theorem firstIncoming_self :
    ∀ (changes : List Change) (c : Change),
      (changes.map Change.setting).Nodup → c ∈ changes →
      firstIncoming changes c.setting = some c.incoming := by
  intro changes
  induction changes with
  | nil =>
    intro c _ hc
    simp at hc
  | cons c0 rest ih =>
    intro c hnd hc
    simp only [List.map_cons, List.nodup_cons] at hnd
    obtain ⟨hnd0, hndr⟩ := hnd
    rcases List.mem_cons.mp hc with rfl | hcr
    · unfold firstIncoming
      rw [List.find?_cons_of_pos _ (by simp)]
      rfl
    · have hne : c0.setting = c.setting → False := by
        intro he
        exact hnd0 (he ▸ List.mem_map_of_mem Change.setting hcr)
      unfold firstIncoming
      rw [List.find?_cons_of_neg _ (by simpa using hne)]
      exact ih c hndr hcr

/-- Soundness of _consume_echo_changes: when every change is matched by a
still-pending unexpired write, the echo is consumed — the classification
returns true and, per changed setting, the latest matching index is found,
the ledger is cut just past it, and the baseline adopts the incoming
value. -/
theorem consumeEcho_sound (cfg : Config) (st : EntityState) (changes : List Change)
    (now : ℚ) (hnd : (changes.map Change.setting).Nodup)
    (H : ∀ c ∈ changes, HasUnexpiredMatch cfg st c now) :
    (consumeEchoChanges cfg st changes now).1 = true ∧
    ∀ c ∈ changes, ∃ i,
      lastMatchIdx c.setting (pendingTolFor cfg st c.setting) c.incoming
        (cleanupList now (st.pendingSettingRequests c.setting)) = some i ∧
      (consumeEchoChanges cfg st changes now).2.pendingSettingRequests c.setting =
        (cleanupList now (st.pendingSettingRequests c.setting)).drop (i + 1) ∧
      getSsotBaseline (consumeEchoChanges cfg st changes now).2 c.setting =
        some c.incoming := by
  obtain ⟨idxs, st1, heq, hfa, hdisj, hclean, hshape⟩ := echoMatchLoop_sound cfg now changes st H
  have hconsume : consumeEchoChanges cfg st changes now =
      (true, applyEchoConsumption changes idxs st1) := by
    unfold consumeEchoChanges
    rw [heq]
  have hkeys : idxs.map Prod.fst = changes.map Change.setting :=
    forall2_fst_eq (fun a b h => h.1) hfa
  have hndk : (idxs.map Prod.fst).Nodup := by
    rw [hkeys]
    exact hnd
  refine ⟨by rw [hconsume], ?_⟩
  intro c hc
  obtain ⟨si, hsi, hfst, hidx⟩ := forall2_exists_right hfa c hc
  obtain ⟨hpend, hbase⟩ := applyEcho_spec changes idxs st1 hndk si hsi
  refine ⟨si.2, hidx, ?_, ?_⟩
  · rw [hconsume]
    rw [hfst] at hpend
    rw [hpend, hclean c hc]
  · rw [hconsume]
    have hfi : firstIncoming changes si.1 = some c.incoming := by
      rw [hfst]
      exact firstIncoming_self changes c hnd hc
    have hb := hbase c.incoming hfi
    rw [hfst] at hb
    exact hb

/-! ## Distinctness of collected changes and handle unfolding -/

/-- The setting catalog has no duplicates. -/
theorem allSettings_nodup : allSettings.Nodup := by decide

/-- Active tracked settings derived from a bitmask are duplicate-free. -/
theorem activeFromSupported_nodup (supported : ℕ) : (activeFromSupported supported).Nodup :=
  allSettings_nodup.filter _

/-- A collected change carries the setting it was collected for. -/
theorem collectOne_setting (st : EntityState) (ns : HAState) (prev : Option HAState)
    (s : TrackableSetting) (ch : Change) (h : collectOne st ns prev s = some ch) :
    ch.setting = s := by
  unfold collectOne at h
  split at h
  · exact absurd h (by simp)
  · split at h
    · exact absurd h (by simp)
    · split_ifs at h
      injection h with h2
      subst h2
      rfl

/-- Keys of a filterMap whose results carry their input form a sublist. -/
theorem filterMap_key_sublist {α β : Type} (f : α → Option β) (g : β → α)
    (hkey : ∀ a b, f a = some b → g b = a) :
    ∀ l : List α, ((l.filterMap f).map g).Sublist l := by
  intro l
  induction l with
  | nil => simp
  | cons a rest ih =>
    rw [List.filterMap_cons]
    cases hf : f a with
    | none => exact ih.cons a
    | some b =>
      rw [List.map_cons, hkey a b hf]
      exact ih.cons₂ a

/-- Collected changes have duplicate-free settings whenever the active set
does. -/
theorem collect_settings_nodup (st : EntityState) (ns : HAState) (prev : Option HAState)
    (h : st.activeTrackedSettings.Nodup) :
    ((collectCanonicalChanges st ns prev).map Change.setting).Nodup :=
  ((filterMap_key_sublist _ _ (collectOne_setting st ns prev))
    st.activeTrackedSettings).nodup h

/-- The non-off bookkeeping does not alter the active set. -/
theorem rememberNonOff_active (st : EntityState) (m : Option Val) :
    (rememberNonOffHvacMode st m).activeTrackedSettings = st.activeTrackedSettings := by
  rcases m with _ | v
  · rfl
  · cases v with
    | num q => rfl
    | str mm =>
      simp only [rememberNonOffHvacMode]
      split_ifs <;> rfl

/-- One seeding step does not alter the active set. -/
theorem seedStep_active (ns : HAState) (s0 : EntityState) (s : TrackableSetting) :
    (seedStep ns s0 s).activeTrackedSettings = s0.activeTrackedSettings := by
  unfold seedStep
  split_ifs
  · cases s0.lastRealTargetTemp
    · cases coerceTemperature (ns.getAttr "temperature") <;> rfl
    · rfl
  · cases s.readFrom ns <;> rfl

/-- Seeding does not alter the active set. -/
theorem seed_active (ns : HAState) :
    ∀ (l : List TrackableSetting) (s0 : EntityState),
      (l.foldl (seedStep ns) s0).activeTrackedSettings = s0.activeTrackedSettings := by
  intro l
  induction l with
  | nil => intro s0; rfl
  | cons s rest ih =>
    intro s0
    rw [List.foldl_cons, ih, seedStep_active]

/-- The active tracked settings entering the Evaluate stage come from the
capability bitmask of the new snapshot. -/
theorem evaluationState_active (st : EntityState) (ns : HAState) :
    (evaluationState st ns).activeTrackedSettings =
      activeFromSupported (supportedFeaturesOf ns) := by
  simp only [evaluationState]
  split_ifs
  · rw [seedSsotBaselines, seed_active, rememberNonOff_active]
    rfl
  · rw [rememberNonOff_active]
    rfl

/-- The changes computed in the Evaluate stage have duplicate-free
settings. -/
theorem evaluation_changes_nodup (st : EntityState) (ns : HAState) (prev : Option HAState) :
    ((collectCanonicalChanges (evaluationState st ns) ns prev).map Change.setting).Nodup :=
  collect_settings_nodup _ ns prev
    (evaluationState_active st ns ▸ activeFromSupported_nodup _)

/-- Unfolding of handle_real_state_event on the accepted-echo path. -/
theorem handle_echo_eq (cfg : Config) (st : EntityState) (ns : HAState) (now : ℚ)
    (h1 : isUnavailableState ns.state = false)
    (h2 : collectCanonicalChanges (evaluationState st ns) ns st.realState ≠ [])
    (h3 : (consumeEchoChanges cfg (evaluationState st ns)
      (collectCanonicalChanges (evaluationState st ns) ns st.realState) now).1 = true) :
    handleRealStateEvent cfg st (some ns) now =
      ⟨(consumeEchoChanges cfg (evaluationState st ns)
        (collectCanonicalChanges (evaluationState st ns) ns st.realState) now).2,
       true, false⟩ := by
  simp only [handleRealStateEvent]
  rw [h1]
  simp only [Bool.false_eq_true, if_false]
  have he : (collectCanonicalChanges (evaluationState st ns) ns st.realState).isEmpty = false := by
    cases hee : (collectCanonicalChanges (evaluationState st ns) ns st.realState).isEmpty
    · rfl
    · exact absurd (List.isEmpty_iff.mp hee) h2
  rw [he]
  simp only [Bool.false_eq_true, if_false]
  have hp : consumeEchoChanges cfg (evaluationState st ns)
      (collectCanonicalChanges (evaluationState st ns) ns st.realState) now =
      (true, (consumeEchoChanges cfg (evaluationState st ns)
        (collectCanonicalChanges (evaluationState st ns) ns st.realState) now).2) := by
    rw [← h3]
  conv_lhs => rw [hp]

/-- Claim C10: when an echo is consumed, each changed setting selects the
LATEST (highest-index) pending entry matching the incoming value — using
the precision-derived pending tolerance for numeric settings — and the
ledger is cut just past that index, deleting the matched entry together
with every earlier (possibly unmatched) entry. -/
theorem claim_C10_latest_match_prefix_deletion :
    ∀ (cfg : Config) (st : EntityState) (changes : List Change) (now : ℚ),
      (changes.map Change.setting).Nodup →
      (∀ c ∈ changes, HasUnexpiredMatch cfg st c now) →
      (∀ s : TrackableSetting, s.isNumeric = true →
        pendingTolFor cfg st s = some (pendingRequestTolerance cfg st)) ∧
      (consumeEchoChanges cfg st changes now).1 = true ∧
      ∀ c ∈ changes, ∃ i,
        lastMatchIdx c.setting (pendingTolFor cfg st c.setting) c.incoming
          (cleanupList now (st.pendingSettingRequests c.setting)) = some i ∧
        (∃ h : i < (cleanupList now (st.pendingSettingRequests c.setting)).length,
          c.setting.valuesMatch (some c.incoming)
            (some ((cleanupList now (st.pendingSettingRequests c.setting)).get ⟨i, h⟩).1)
            (pendingTolFor cfg st c.setting) = true) ∧
        (∀ e ∈ (cleanupList now (st.pendingSettingRequests c.setting)).drop (i + 1),
          c.setting.valuesMatch (some c.incoming) (some e.1)
            (pendingTolFor cfg st c.setting) = false) ∧
        (consumeEchoChanges cfg st changes now).2.pendingSettingRequests c.setting =
          (cleanupList now (st.pendingSettingRequests c.setting)).drop (i + 1) := by
  intro cfg st changes now hnd H
  obtain ⟨h1, h2⟩ := consumeEcho_sound cfg st changes now hnd H
  refine ⟨fun s hs => by simp [pendingTolFor, hs], h1, ?_⟩
  intro c hc
  obtain ⟨i, hi, hpend, _⟩ := h2 c hc
  obtain ⟨_, hex⟩ := lastMatchFrom_spec c.setting (pendingTolFor cfg st c.setting) c.incoming
    (cleanupList now (st.pendingSettingRequests c.setting)) 0 i hi
  simp only [Nat.sub_zero] at hex
  obtain ⟨hlt, hmatch, hdrop⟩ := hex
  exact ⟨i, hi, ⟨hlt, hmatch⟩, hdrop, hpend⟩

/-- Witness for claim C10: echo consumption of a mode flip to cool that
matches the second (latest) of two pending hvac entries; the older
unmatched entry is discarded with the prefix. -/
theorem claim_C10_witness :
    (consumeEchoChanges exCfg echoState [⟨.hvacMode, .str "heat", .str "cool"⟩] 1).1 = true :=
  (claim_C10_latest_match_prefix_deletion exCfg echoState
    [⟨.hvacMode, .str "heat", .str "cool"⟩] 1 (by decide)
    (by
      intro c hc
      simp only [List.mem_singleton] at hc
      subst hc
      exact ⟨(.str "cool", 0), by decide, by norm_num [PENDING_REQUEST_TIMEOUT],
        by decide⟩)).2.1

/-- Claim C1: a notification with a non-empty changed-setting set, all of
whose changed settings are matched by still-pending writes, is classified
as a self-echo: processing continues, no correction is scheduled, each
changed setting adopts the incoming value as baseline and its matched
pending entry (with the earlier prefix) is consumed. -/
theorem claim_C1_echo_reconciliation :
    ∀ (cfg : Config) (st : EntityState) (ns : HAState) (now : ℚ) (changes : List Change),
      changes = collectCanonicalChanges (evaluationState st ns) ns st.realState →
      isUnavailableState ns.state = false →
      changes ≠ [] →
      (∀ c ∈ changes, HasUnexpiredMatch cfg (evaluationState st ns) c now) →
      (handleRealStateEvent cfg st (some ns) now).continueProcessing = true ∧
      (handleRealStateEvent cfg st (some ns) now).correctionScheduled = false ∧
      (∀ c ∈ changes,
        getSsotBaseline (handleRealStateEvent cfg st (some ns) now).state c.setting =
          some c.incoming) ∧
      (∀ c ∈ changes, ∃ i,
        lastMatchIdx c.setting (pendingTolFor cfg (evaluationState st ns) c.setting)
          c.incoming
          (cleanupList now ((evaluationState st ns).pendingSettingRequests c.setting)) =
          some i ∧
        (handleRealStateEvent cfg st (some ns) now).state.pendingSettingRequests c.setting =
          (cleanupList now
            ((evaluationState st ns).pendingSettingRequests c.setting)).drop (i + 1)) := by
  intro cfg st ns now changes hch h1 h2 H
  subst hch
  have hnd := evaluation_changes_nodup st ns st.realState
  obtain ⟨hc1, hc2⟩ := consumeEcho_sound cfg (evaluationState st ns) _ now hnd H
  have hhandle := handle_echo_eq cfg st ns now h1 h2 hc1
  rw [hhandle]
  refine ⟨rfl, rfl, ?_, ?_⟩
  · intro c hc
    obtain ⟨i, _, _, hbase⟩ := hc2 c hc
    exact hbase
  · intro c hc
    obtain ⟨i, hi, hpend, _⟩ := hc2 c hc
    exact ⟨i, hi, hpend⟩

/-- Witness for claim C1: the echo fixture — baseline heat, pending cool,
device reports cool — is accepted as an echo with no correction. -/
theorem claim_C1_witness :
    (handleRealStateEvent exCfg echoState (some echoDevice) 1).continueProcessing = true ∧
    (handleRealStateEvent exCfg echoState (some echoDevice) 1).correctionScheduled = false := by
  have hcoll : collectCanonicalChanges (evaluationState echoState echoDevice) echoDevice
      echoState.realState = [⟨.hvacMode, .str "heat", .str "cool"⟩] := by decide
  have h := claim_C1_echo_reconciliation exCfg echoState echoDevice 1 _ rfl rfl
    (by rw [hcoll]; simp)
    (by
      intro c hc
      rw [hcoll] at hc
      simp only [List.mem_singleton] at hc
      subst hc
      exact ⟨(.str "cool", 0), by decide, by norm_num [PENDING_REQUEST_TIMEOUT],
        by decide⟩)
  exact ⟨h.1, h.2.1⟩

/-! ## Rollback lemmas -/

/-- Removing the first match from a list whose only match is the appended
last element removes exactly that element. -/
theorem removeFirstMatch_append (s : TrackableSetting) (v : Val) (tolerance : Option ℚ)
    (a : PendingEntry) (hm : s.valuesMatch (some v) (some a.1) tolerance = true) :
    ∀ l : List PendingEntry,
      (∀ e ∈ l, s.valuesMatch (some v) (some e.1) tolerance = false) →
      removeFirstMatch s v tolerance (l ++ [a]) = l := by
  intro l
  induction l with
  | nil =>
    intro _
    simp [removeFirstMatch, hm]
  | cons e rest ih =>
    intro h
    have he : s.valuesMatch (some v) (some e.1) tolerance = false :=
      h e (List.mem_cons_self e rest)
    rw [List.cons_append]
    simp only [removeFirstMatch, he, Bool.false_eq_true, if_false]
    rw [ih (fun f hf => h f (List.mem_cons_of_mem e hf))]

/-- Tail of a nonempty list with an appended element. -/
theorem tail_append_singleton {α : Type} (l : List α) (a : α) (h : l ≠ []) :
    (l ++ [a]).tail = l.tail ++ [a] := by
  cases l with
  | nil => exact absurd rfl h
  | cons x xs => rfl

/-- Claim C3 (amended): when a caller-initiated temperature set fails in
the transport, the error is re-raised and the last-real-target field,
last-write timestamp, log-suppression window, baseline map and virtual
target are restored to their exact pre-call values; the first pending
Temperature entry matching the written value is removed — which is the
optimistically recorded entry itself whenever no pre-existing pending
entry matches the written value within the pending tolerance (the ledger
then holds its pre-call entries, minus the oldest when the record
overflowed the capacity of 5). -/
theorem claim_C3_set_temperature_rollback :
    ∀ (cfg : Config) (st : EntityState) (tmp : Option Val) (now requested : ℚ)
      (constrained realTarget d c : ℚ),
      coerceTemperature tmp = some requested →
      computeDeltaTarget cfg st requested = some (constrained, realTarget, d, c) →
      (∀ e ∈ st.pendingSettingRequests .temperature,
        TrackableSetting.temperature.valuesMatch (some (.num realTarget)) (some e.1)
          (some (pendingRequestTolerance cfg st)) = false) →
      (asyncSetTemperature cfg st tmp now false).raised = true ∧
      (asyncSetTemperature cfg st tmp now false).state.lastRealTargetTemp =
        st.lastRealTargetTemp ∧
      (asyncSetTemperature cfg st tmp now false).state.lastRealWriteTime =
        st.lastRealWriteTime ∧
      (asyncSetTemperature cfg st tmp now false).state.suppressSyncLogsUntil =
        st.suppressSyncLogsUntil ∧
      (asyncSetTemperature cfg st tmp now false).state.ssotBaselines = st.ssotBaselines ∧
      (asyncSetTemperature cfg st tmp now false).state.virtualTargetTemperature =
        st.virtualTargetTemperature ∧
      (∀ s, s ≠ TrackableSetting.temperature →
        (asyncSetTemperature cfg st tmp now false).state.pendingSettingRequests s =
          st.pendingSettingRequests s) ∧
      (asyncSetTemperature cfg st tmp now false).state.pendingSettingRequests .temperature =
        (if 5 < (st.pendingSettingRequests .temperature).length + 1
         then (st.pendingSettingRequests .temperature).tail
         else st.pendingSettingRequests .temperature) := by
  intro cfg st tmp now requested constrained realTarget d c hco hcd Hno
  have hrefl : TrackableSetting.temperature.valuesMatch (some (.num realTarget))
      (some (.num realTarget)) (some (pendingRequestTolerance cfg st)) = true :=
    valuesMatch_refl_num _ _ _
  simp only [asyncSetTemperature, hco, hcd]
  by_cases hss : ssotActive st = true <;>
    simp only [hss, Bool.false_eq_true, if_true, if_false, beginWriteTransaction,
      rollbackWriteTransaction, removePendingSettingRequest, recordSettingRequest,
      List.foldl_cons, List.foldl_nil, snapInsert, List.any_nil, List.nil_append,
      setSsotBaseline, getSsotBaseline, if_pos rfl,
      TrackableSetting.isNumeric, if_true] <;>
    refine ⟨by trivial, by trivial, by trivial, by trivial, by trivial, by trivial, ?_, ?_⟩
  all_goals first
  | (intro s hs
     simp only [Function.update_noteq hs]
     try rfl)
  | (simp only [Function.update_same, recordList, MAX_TRACKED_REAL_TARGET_REQUESTS,
       List.length_append, List.length_singleton]
     split_ifs with hlen
     · have hne : st.pendingSettingRequests .temperature ≠ [] := by
         intro hnil
         rw [hnil] at hlen
         simp at hlen
       rw [tail_append_singleton _ _ hne]
       exact removeFirstMatch_append _ _ _ (Val.num realTarget, now) hrefl _
         (fun e he => Hno e ((List.tail_sublist _).subset he))
     · exact removeFirstMatch_append _ _ _ (Val.num realTarget, now) hrefl _ Hno)

/-- Constraining 22.5 at the rollback fixture yields 22.5. -/
theorem applyTargetConstraintsCore_rb_225 :
    applyTargetConstraintsCore exCfg rollbackState (45 / 2) = 45 / 2 := by
  rw [applyTargetConstraintsCore_plain exCfg rollbackState (45 / 2) rfl rfl rfl rfl rfl rfl
    rfl rfl rfl rfl (by norm_num) (by norm_num)]
  exact roundToDecimals_one_fix (45 / 2) 225 (by norm_num)

/-- Delta-target computation at the rollback fixture: the physical sensor is
selected, so display and device current coincide at 21 and the device
target equals the constrained request 22.5. -/
theorem computeDeltaTarget_rollbackState :
    computeDeltaTarget exCfg rollbackState (45 / 2) = some (45 / 2, 45 / 2, 21, 21) := by
  have h4 : applyTargetConstraintsCore exCfg rollbackState
      (21 + (applyTargetConstraintsCore exCfg rollbackState (45 / 2) - 21)) =
      21 + (applyTargetConstraintsCore exCfg rollbackState (45 / 2) - 21) := by
    rw [applyTargetConstraintsCore_rb_225,
      show (21 : ℚ) + (45 / 2 - 21) = 45 / 2 by norm_num]
    exact applyTargetConstraintsCore_rb_225
  rw [computeDeltaTarget_formula exCfg rollbackState (45 / 2) 21 21 rfl rfl
    (applySafetyClampCore_exState exCfg rollbackState _ rfl rfl rfl rfl) h4,
    applyTargetConstraintsCore_rb_225]
  norm_num

/-- Counterexample to claim C3 as stated: at the rollback fixture an older
pending Temperature entry holds the same value 22.5 that the failing write
records, so the removal step of the rollback deletes that older entry and
the optimistically recorded entry, stamped at the call time 1, survives in
the ledger. -/
theorem claim_C3_counterexample :
    (asyncSetTemperature exCfg rollbackState (some (.num (45 / 2))) 1 false).raised = true ∧
    (Val.num (45 / 2), (1 : ℚ)) ∈
      (asyncSetTemperature exCfg rollbackState (some (.num (45 / 2)))
        1 false).state.pendingSettingRequests .temperature := by
  have hco : coerceTemperature (some (.num (45 / 2))) = some (45 / 2) := rfl
  have hss : ssotActive rollbackState = false := rfl
  have hpend : rollbackState.pendingSettingRequests .temperature =
      [(.num (45 / 2), 0)] := rfl
  simp only [asyncSetTemperature, hco, computeDeltaTarget_rollbackState, hss, Bool.false_eq_true, if_false,
    beginWriteTransaction, rollbackWriteTransaction, removePendingSettingRequest,
    recordSettingRequest, List.foldl_cons, List.foldl_nil, snapInsert,
    TrackableSetting.isNumeric, if_true, recordList, hpend, Function.update_same,
    MAX_TRACKED_REAL_TARGET_REQUESTS, List.cons_append, List.nil_append,
    List.length_cons, List.length_nil, removeFirstMatch, valuesMatch_refl_num]
  norm_num

/-- Witness for claim C3: the amended theorem applied at the example fixture
with requested value 25 and an empty pending ledger, the transport call
failing at time 1. -/
theorem claim_C3_witness :
    (asyncSetTemperature exCfg exState (some (.num 25)) 1 false).raised = true ∧
    (asyncSetTemperature exCfg exState (some (.num 25)) 1 false).state.lastRealTargetTemp =
      exState.lastRealTargetTemp ∧
    (asyncSetTemperature exCfg exState (some (.num 25)) 1 false).state.lastRealWriteTime =
      exState.lastRealWriteTime ∧
    (asyncSetTemperature exCfg exState (some (.num 25)) 1 false).state.suppressSyncLogsUntil =
      exState.suppressSyncLogsUntil ∧
    (asyncSetTemperature exCfg exState (some (.num 25)) 1 false).state.ssotBaselines =
      exState.ssotBaselines ∧
    (asyncSetTemperature exCfg exState (some (.num 25)) 1 false).state.virtualTargetTemperature =
      exState.virtualTargetTemperature ∧
    (∀ s, s ≠ TrackableSetting.temperature →
      (asyncSetTemperature exCfg exState (some (.num 25)) 1 false).state.pendingSettingRequests s =
        exState.pendingSettingRequests s) ∧
    (asyncSetTemperature exCfg exState (some (.num 25)) 1 false).state.pendingSettingRequests
      .temperature =
      (if 5 < (exState.pendingSettingRequests .temperature).length + 1
       then (exState.pendingSettingRequests .temperature).tail
       else exState.pendingSettingRequests .temperature) :=
  claim_C3_set_temperature_rollback exCfg exState (some (.num 25)) 1 25 25 (45 / 2) (47 / 2) 21
    rfl computeDeltaTarget_exState (fun e he => absurd he (List.not_mem_nil e))

/-- Target constraints depend only on the configuration and the four limit
fields of the state. -/
theorem applyTargetConstraintsCore_congr (cfg : Config) (st st2 : EntityState) (v : ℚ)
    (h1 : st2.devMinTemp = st.devMinTemp) (h2 : st2.devMaxTemp = st.devMaxTemp)
    (h3 : st2.targetTempStep = st.targetTempStep)
    (h4 : st2.precisionOverride = st.precisionOverride) :
    applyTargetConstraintsCore cfg st2 v = applyTargetConstraintsCore cfg st v := by
  unfold applyTargetConstraintsCore roundTemperature minTempProp maxTempProp
    targetTempStepProp precisionProp
  rw [h1, h2, h3, h4]

/-- The baseline-update fold of _accept_external_change leaves the device
snapshot and the four limit fields untouched. -/
theorem acceptFold_fields (changes : List Change) :
    ∀ st : EntityState,
      (changes.foldl acceptStep st).realState = st.realState ∧
      (changes.foldl acceptStep st).devMinTemp = st.devMinTemp ∧
      (changes.foldl acceptStep st).devMaxTemp = st.devMaxTemp ∧
      (changes.foldl acceptStep st).targetTempStep = st.targetTempStep ∧
      (changes.foldl acceptStep st).precisionOverride = st.precisionOverride := by
  induction changes with
  | nil =>
    intro st
    exact ⟨rfl, rfl, rfl, rfl, rfl⟩
  | cons c rest ih =>
    intro st
    simp only [List.foldl_cons]
    have hstep : (acceptStep st c).realState = st.realState ∧
        (acceptStep st c).devMinTemp = st.devMinTemp ∧
        (acceptStep st c).devMaxTemp = st.devMaxTemp ∧
        (acceptStep st c).targetTempStep = st.targetTempStep ∧
        (acceptStep st c).precisionOverride = st.precisionOverride := by
      unfold acceptStep
      split_ifs
      · have h := setSsot_fields st c.setting c.incoming
        exact ⟨h.2.1, h.2.2.1, h.2.2.2.1, h.2.2.2.2.1, h.2.2.2.2.2.1⟩
      · exact ⟨rfl, rfl, rfl, rfl, rfl⟩
    obtain ⟨g1, g2, g3, g4, g5⟩ := ih (acceptStep st c)
    exact ⟨g1.trans hstep.1, g2.trans hstep.2.1, g3.trans hstep.2.2.1,
      g4.trans hstep.2.2.2.1, g5.trans hstep.2.2.2.2⟩

/-- Claim C4: when an accepted external change set includes the Temperature
setting and the device target is readable, accepting the change refreshes
the last-real-target alias from the live device reading, recomputes the
virtual target by constraining the new device target, and forces the
active sensor selection to the physical passthrough sensor. -/
theorem claim_C4_accept_temperature :
    ∀ (cfg : Config) (st : EntityState) (changes : List Change) (rt : ℚ),
      getRealTargetTemperature st = some rt →
      changes.any (fun c => c.setting.attrKey = "temperature") = true →
      (acceptExternalChange cfg st changes).lastRealTargetTemp = some (.num rt) ∧
      (acceptExternalChange cfg st changes).selectedSensorName = cfg.physicalSensorName ∧
      (acceptExternalChange cfg st changes).virtualTargetTemperature =
        some (applyTargetConstraintsCore cfg st rt) := by
  intro cfg st changes rt hrt htemp
  obtain ⟨h1, h2, h3, h4, h5⟩ := acceptFold_fields changes st
  have hrt1 : getRealTargetTemperature (changes.foldl acceptStep st) = some rt := by
    unfold getRealTargetTemperature at hrt ⊢
    rw [h1]
    exact hrt
  unfold acceptExternalChange
  simp only [hrt1, htemp, if_true]
  unfold handleExternalRealTargetChange
  refine ⟨rfl, rfl, ?_⟩
  have hc := applyTargetConstraintsCore_congr cfg st
    { changes.foldl acceptStep st with lastRealTargetTemp := some (.num rt) } rt h2 h3 h4 h5
  rw [hc]

/-- Witness for claim C4: the theorem applied at the accept fixture, where
the device reports target 23 and the change list holds one Temperature
change. -/
theorem claim_C4_witness :
    (acceptExternalChange exCfg acceptState acceptChanges).lastRealTargetTemp =
      some (.num 23) ∧
    (acceptExternalChange exCfg acceptState acceptChanges).selectedSensorName =
      exCfg.physicalSensorName ∧
    (acceptExternalChange exCfg acceptState acceptChanges).virtualTargetTemperature =
      some (applyTargetConstraintsCore exCfg acceptState 23) :=
  claim_C4_accept_temperature exCfg acceptState acceptChanges 23 rfl (by decide)

end ThermostatProxy
